import Mathlib

/-!
Verification of the rust-rpm library (RPM package reader/writer) against its
specification.  The Rust sources are shallowly embedded: byte streams are
lists of naturals (each < 256 where produced by the writer), fallible
operations return `Except String`, and panics are modelled with `Option`
(`none` = panic).  External collaborators (compression codecs, hash
functions, the CPIO archive framing) are modelled per the specification's
interface contracts.
-/

set_option maxRecDepth 10000

namespace Rpm

/-- A byte stream: the contents of a file or buffer, one `Nat` per byte. -/
abbrev Bytes := List Nat

/-! ### Big-endian integer encoding (the `byteorder` crate operations) -/

/-- Big-endian encoding of `v` (mod `256 ^ k`) in exactly `k` bytes,
mirroring `write_u16/u32/u64::<BigEndian>`. -/
def beBytes : Nat → Nat → Bytes
  | 0, _ => []
  | k + 1, v => (v / 256 ^ k) % 256 :: beBytes k v

/-- Big-endian decoding of a byte list. -/
def beVal (bs : Bytes) : Nat := bs.foldl (fun a b => a * 256 + b) 0

theorem beBytes_length (k v : Nat) : (beBytes k v).length = k := by
  induction k generalizing v with
  | zero => rfl
  | succ k ih => simp [beBytes, ih]

theorem beVal_aux (k v a : Nat) :
    (beBytes k v).foldl (fun a b => a * 256 + b) a = a * 256 ^ k + v % 256 ^ k := by
  induction k generalizing a with
  | zero => simp [beBytes, Nat.mod_one]
  | succ k ih =>
      have hsplit : v % (256 ^ k * 256) = v % 256 ^ k + 256 ^ k * (v / 256 ^ k % 256) :=
        Nat.mod_mul
      simp only [beBytes, List.foldl_cons, ih]
      have : 256 ^ (k + 1) = 256 ^ k * 256 := by ring
      rw [this, hsplit]
      ring

theorem beVal_beBytes (k v : Nat) : beVal (beBytes k v) = v % 256 ^ k := by
  simpa using beVal_aux k v 0

/-! ### Stream reading primitives -/

/-- Read exactly `n` bytes from the front of the stream
(`Read::read_exact`); fails with an EOF error if the stream is shorter. -/
def takeN (n : Nat) (bs : Bytes) : Except String (Bytes × Bytes) :=
  if n ≤ bs.length then .ok (bs.take n, bs.drop n) else .error "failed to fill whole buffer"

/-- Read a `k`-byte big-endian unsigned integer. -/
def readBE (k : Nat) (bs : Bytes) : Except String (Nat × Bytes) :=
  (takeN k bs).map (fun p => (beVal p.1, p.2))

theorem takeN_of_le {n : Nat} {bs : Bytes} (h : n ≤ bs.length) :
    takeN n bs = .ok (bs.take n, bs.drop n) := by
  simp [takeN, h]

theorem takeN_append (l r : Bytes) : takeN l.length (l ++ r) = .ok (l, r) := by
  simp [takeN]

theorem takeN_append_of_eq {n : Nat} {l : Bytes} (h : l.length = n) (r : Bytes) :
    takeN n (l ++ r) = .ok (l, r) := by
  subst h; exact takeN_append l r

theorem readBE_beBytes {k v : Nat} (h : v < 256 ^ k) (r : Bytes) :
    readBE k (beBytes k v ++ r) = .ok (v, r) := by
  simp [readBE, takeN_append_of_eq (beBytes_length k v) r, Except.map, beVal_beBytes,
    Nat.mod_eq_of_lt h]

/-! ### 32-bit signed integers (`i32`), as stored in index tables -/

/-- Decode a `u32` bit pattern as an `i32` (two's complement). -/
def i32ofNat (n : Nat) : Int := if n < 2 ^ 31 then (n : Int) else (n : Int) - 2 ^ 32

/-- Encode an `i32` as its `u32` bit pattern. -/
def i32enc (t : Int) : Nat := (t % (2 ^ 32)).toNat

/-- The value range of an `i32`. -/
def InI32 (t : Int) : Prop := -(2 ^ 31) ≤ t ∧ t < 2 ^ 31

instance (t : Int) : Decidable (InI32 t) := by unfold InI32; infer_instance

theorem i32enc_lt (t : Int) : i32enc t < 256 ^ 4 := by
  unfold i32enc
  have h4 : (256 : Nat) ^ 4 = 2 ^ 32 := by norm_num
  rw [h4]
  omega

theorem i32ofNat_i32enc {t : Int} (h : InI32 t) : i32ofNat (i32enc t) = t := by
  obtain ⟨h1, h2⟩ := h
  have e1 : (-(2 ^ 31) : Int) = -2147483648 := by norm_num
  have e2 : ((2 ^ 31) : Int) = 2147483648 := by norm_num
  rw [e1] at h1; rw [e2] at h2
  unfold i32ofNat i32enc
  split <;> omega

/-- Read a big-endian `i32` (`read_i32::<BigEndian>`). -/
def readI32 (bs : Bytes) : Except String (Int × Bytes) :=
  (readBE 4 bs).map (fun p => (i32ofNat p.1, p.2))

theorem readI32_enc {t : Int} (h : InI32 t) (r : Bytes) :
    readI32 (beBytes 4 (i32enc t) ++ r) = .ok (t, r) := by
  simp [readI32, readBE_beBytes (i32enc_lt t) r, Except.map, i32ofNat_i32enc h]

/-! ### Decimal formatting (for error messages and `format!`) -/

/-- Decimal digits of `n`, most significant first (`fuel`-driven). -/
def decDigits : Nat → Nat → List Nat
  | 0, _ => []
  | fuel + 1, n => if n < 10 then [n] else decDigits fuel (n / 10) ++ [n % 10]

/-- The decimal representation of a natural number as ASCII bytes. -/
def decBytes (n : Nat) : Bytes := (decDigits (n + 1) n).map (fun d => 48 + d)

/-- The decimal representation of a natural number as a string. -/
def numToStr (n : Nat) : String :=
  .mk ((decDigits (n + 1) n).map (fun d => Char.ofNat (48 + d)))

/-- The decimal representation of an integer as a string. -/
def intToStr (i : Int) : String :=
  if i < 0 then "-" ++ numToStr i.natAbs else numToStr i.toNat

/-- `str::parse::<u32>`: optional leading `+`, then decimal digits; rejects
the empty string, non-digits, and values above `u32::MAX`. -/
def parseU32 (s : Bytes) : Option Nat :=
  let t := if s.head? = some 43 then s.tail else s
  if t = [] then none
  else if t.all (fun b => 48 ≤ b && b ≤ 57) then
    let v := t.foldl (fun a b => a * 10 + (b - 48)) 0
    if v < 2 ^ 32 then some v else none
  else none

/-- The bytes of an ASCII string literal (all literals used are ASCII, so
this is their UTF-8 encoding). -/
def str (s : String) : Bytes := s.data.map Char.toNat

/-! ### UTF-8 validation (`String::from_utf8`) -/

/-- Is `b` a UTF-8 continuation byte (`10xxxxxx`)? -/
def utf8Cont (b : Nat) : Bool := 128 ≤ b && b < 192

/-- Byte-level UTF-8 validity, per RFC 3629 (what `String::from_utf8`
accepts): no overlong forms, no surrogates, max `U+10FFFF`. -/
def isUtf8 : Bytes → Bool
  | [] => true
  | b :: rest =>
    if b < 128 then isUtf8 rest
    else if 194 ≤ b && b ≤ 223 then
      match rest with
      | c1 :: r => utf8Cont c1 && isUtf8 r
      | [] => false
    else if b = 224 then
      match rest with
      | c1 :: c2 :: r => (160 ≤ c1 && c1 < 192) && utf8Cont c2 && isUtf8 r
      | _ => false
    else if 225 ≤ b && b ≤ 236 then
      match rest with
      | c1 :: c2 :: r => utf8Cont c1 && utf8Cont c2 && isUtf8 r
      | _ => false
    else if b = 237 then
      match rest with
      | c1 :: c2 :: r => (128 ≤ c1 && c1 < 160) && utf8Cont c2 && isUtf8 r
      | _ => false
    else if 238 ≤ b && b ≤ 239 then
      match rest with
      | c1 :: c2 :: r => utf8Cont c1 && utf8Cont c2 && isUtf8 r
      | _ => false
    else if b = 240 then
      match rest with
      | c1 :: c2 :: c3 :: r => (144 ≤ c1 && c1 < 192) && utf8Cont c2 && utf8Cont c3 && isUtf8 r
      | _ => false
    else if 241 ≤ b && b ≤ 243 then
      match rest with
      | c1 :: c2 :: c3 :: r => utf8Cont c1 && utf8Cont c2 && utf8Cont c3 && isUtf8 r
      | _ => false
    else if b = 244 then
      match rest with
      | c1 :: c2 :: c3 :: r => (128 ≤ c1 && c1 < 144) && utf8Cont c2 && utf8Cont c3 && isUtf8 r
      | _ => false
    else false

/-- A byte string that round-trips through the index-table string encoding:
NUL-free and valid UTF-8. -/
def strWF (s : Bytes) : Bool := !s.contains 0 && isUtf8 s

/-! ### Trailing-zero trimming (lead-section name field) -/

/-- Remove all trailing zero bytes (`while name.last() == Some(&0) name.pop()`). -/
def trimTrailingZeros (bs : Bytes) : Bytes :=
  (bs.reverse.dropWhile (fun b => b == 0)).reverse

theorem trimTrailingZeros_append_zeros {bs : Bytes} (h : bs.getLast? ≠ some 0)
    (k : Nat) : trimTrailingZeros (bs ++ List.replicate k 0) = bs := by
  unfold trimTrailingZeros
  rw [List.reverse_append, List.reverse_replicate]
  have hrep : List.dropWhile (fun b => b == 0) (List.replicate k 0 ++ bs.reverse)
      = List.dropWhile (fun b => b == 0) bs.reverse := by
    induction k with
    | zero => simp
    | succ k ih => simp only [List.replicate_succ, List.cons_append, List.dropWhile]; exact ih
  rw [hrep]
  cases hbs : bs.reverse with
  | nil => simp [List.reverse_eq_nil_iff.mp hbs]
  | cons a t =>
      have ha : bs.getLast? = some a := by
        rw [← List.head?_reverse, hbs]; rfl
      have : a ≠ 0 := by intro h0; exact h (h0 ▸ ha)
      have : (a == 0) = false := by simpa using this
      simp only [List.dropWhile_cons, this, Bool.false_eq_true, if_false]
      rw [← hbs, List.reverse_reverse]

/-! ### `internal/convert.rs`: timestamp conversion -/

/-- A `std::time::SystemTime`, as a signed count of nanoseconds relative to
`UNIX_EPOCH`. -/
abbrev SystemTime := Int

/-- `u32_to_system_time`: `UNIX_EPOCH + Duration::new(seconds, 0)`. -/
def u32_to_system_time (seconds : Nat) : SystemTime := (seconds : Int) * 1000000000

/-- `system_time_to_u32`: clamps times before the epoch to 0 and seconds
values at or above `u32::MAX` to `u32::MAX`. -/
def system_time_to_u32 (timestamp : SystemTime) : Nat :=
  if timestamp < 0 then 0
  else
    let seconds := timestamp.toNat / 1000000000
    if 4294967295 ≤ seconds then 4294967295 else seconds

/-! ### `internal/lead.rs`: the lead (preamble) section -/

/-- The type of an RPM package. -/
inductive PackageType
  | Binary
  | Source
deriving DecidableEq

namespace PackageType

def number : PackageType → Nat
  | .Binary => 0
  | .Source => 1

def from_number (n : Nat) : Option PackageType :=
  if n = 0 then some .Binary else if n = 1 then some .Source else none

end PackageType

/-- The "Lead" section of an RPM package file. -/
structure LeadSection where
  package_type : PackageType
  name : Bytes
deriving DecidableEq

/-- The 66-byte on-disk name field: the name truncated or NUL-padded to 65
bytes (`name.resize(65, 0)`) followed by a final NUL. -/
def name66 (name : Bytes) : Bytes :=
  name.take 65 ++ List.replicate (65 - name.length) 0 ++ [0]

theorem name66_length (name : Bytes) : (name66 name).length = 66 := by
  simp [name66]
  omega

/-- `LeadSection::write`. -/
def leadWrite (l : LeadSection) : Bytes :=
  beBytes 4 0xedabeedb ++ [3, 0] ++ beBytes 2 l.package_type.number ++
  beBytes 2 1 ++ name66 l.name ++ beBytes 2 1 ++ beBytes 2 5 ++
  List.replicate 16 0

/-- `LeadSection::read`.  Each `match` on an `Except` mirrors a Rust `?`
early return. -/
def leadRead (bs : Bytes) : Except String (LeadSection × Bytes) :=
  match readBE 4 bs with
  | .error e => .error e
  | .ok (magic, bs1) =>
    if magic ≠ 0xedabeedb then .error "Not an RPM package (invalid magic number)" else
    match readBE 1 bs1 with
    | .error e => .error e
    | .ok (vmaj, bs2) =>
      match readBE 1 bs2 with
      | .error e => .error e
      | .ok (vmin, bs3) =>
        if vmaj ≠ 3 ∨ vmin ≠ 0 then
          .error ("Cannot read RPM format version " ++ numToStr vmaj ++ "." ++
            numToStr vmin ++ " (only version 3.0 is supported)") else
        match readBE 2 bs3 with
        | .error e => .error e
        | .ok (ptn, bs4) =>
          match PackageType.from_number ptn with
          | none => .error ("Invalid package type (" ++ numToStr ptn ++ ")")
          | some pt =>
            match readBE 2 bs4 with
            | .error e => .error e
            | .ok (_arch, bs5) =>
              match takeN 66 bs5 with
              | .error e => .error e
              | .ok (nameField, bs6) =>
                match readBE 2 bs6 with
                | .error e => .error e
                | .ok (osn, bs7) =>
                  if osn ≠ 1 then
                    .error ("Invalid RPM OS number (" ++ numToStr osn ++ ")") else
                  match readBE 2 bs7 with
                  | .error e => .error e
                  | .ok (sig, bs8) =>
                    if sig ≠ 5 then
                      .error ("Invalid RPM signature type (" ++ numToStr sig ++ ")") else
                    match takeN 16 bs8 with
                    | .error e => .error e
                    | .ok (_reserved, bs9) =>
                      .ok (⟨pt, trimTrailingZeros nameField⟩, bs9)

/-- Is an `Except` result an error? -/
def isErr : Except ε α → Bool
  | .error _ => true
  | .ok _ => false

instance exceptDecEq {ε α : Type} [DecidableEq ε] [DecidableEq α] :
    DecidableEq (Except ε α) := fun a b =>
  match a, b with
  | .error x, .error y =>
      if h : x = y then .isTrue (by rw [h])
      else .isFalse (by intro hc; injection hc; exact h (by assumption))
  | .ok x, .ok y =>
      if h : x = y then .isTrue (by rw [h])
      else .isFalse (by intro hc; injection hc; exact h (by assumption))
  | .error _, .ok _ => .isFalse (by intro hc; exact Except.noConfusion hc)
  | .ok _, .error _ => .isFalse (by intro hc; exact Except.noConfusion hc)

theorem readBE_one (a : Nat) (r : Bytes) : readBE 1 (a :: r) = .ok (a, r) := by
  simp [readBE, takeN, Except.map, beVal]

theorem leadWrite_length (l : LeadSection) : (leadWrite l).length = 96 := by
  simp [leadWrite, beBytes_length, name66_length]

/-- Reading back a written lead section: always succeeds, restoring the
package type and the trimmed name field. -/
theorem leadRead_leadWrite (l : LeadSection) (rest : Bytes) :
    leadRead (leadWrite l ++ rest)
      = .ok (⟨l.package_type, trimTrailingZeros (name66 l.name)⟩, rest) := by
  obtain ⟨pt, name⟩ := l
  have hm : (0xedabeedb : Nat) < 256 ^ 4 := by norm_num
  have h20 : (0 : Nat) < 256 ^ 2 := by norm_num
  have h21 : (1 : Nat) < 256 ^ 2 := by norm_num
  have h25 : (5 : Nat) < 256 ^ 2 := by norm_num
  cases pt <;>
    · simp [leadRead, leadWrite, List.append_assoc, readBE_beBytes hm, readBE_one,
        readBE_beBytes h20, readBE_beBytes h21, readBE_beBytes h25,
        PackageType.number, PackageType.from_number,
        takeN_append_of_eq (name66_length name)]
      try simp [takeN]

/-- Claim C6: `LeadSection::read` on an available 96-byte preamble fails
exactly when the magic, version, package type code, OS code, or signature
scheme code is invalid; a bad magic yields exactly the message
"Not an RPM package (invalid magic number)"; the architecture field is
ignored. -/
theorem claim_c6_lead_read_errors (bs : Bytes) (h96 : 96 ≤ bs.length)
    (hbytes : ∀ b ∈ bs, b < 256) :
    (isErr (leadRead bs) = true ↔
      (beVal (bs.take 4) ≠ 0xedabeedb ∨
       beVal ((bs.drop 4).take 1) ≠ 3 ∨
       beVal ((bs.drop 5).take 1) ≠ 0 ∨
       (beVal ((bs.drop 6).take 2) ≠ 0 ∧ beVal ((bs.drop 6).take 2) ≠ 1) ∨
       beVal ((bs.drop 76).take 2) ≠ 1 ∨
       beVal ((bs.drop 78).take 2) ≠ 5)) ∧
    (beVal (bs.take 4) ≠ 0xedabeedb →
      leadRead bs = .error "Not an RPM package (invalid magic number)") := by
  clear hbytes
  have hr : ∀ k n m : Nat, n + k = m → m ≤ 96 → readBE k (bs.drop n)
      = .ok (beVal ((bs.drop n).take k), bs.drop m) := by
    intro k n m hm hkn
    have hlen : k ≤ (bs.drop n).length := by simp; omega
    have hd : (bs.drop n).drop k = bs.drop m := by
      rw [List.drop_drop]; congr 1 <;> omega
    simp [readBE, takeN_of_le hlen, Except.map, hd]
  have hr0 : readBE 4 bs = .ok (beVal (bs.take 4), bs.drop 4) := by
    have := hr 4 0 4 (by norm_num) (by norm_num); simpa using this
  have ht66 : takeN 66 (bs.drop 10) = .ok ((bs.drop 10).take 66, bs.drop 76) := by
    have hlen : 66 ≤ (bs.drop 10).length := by simp; omega
    rw [takeN_of_le hlen, List.drop_drop]
  have ht16 : takeN 16 (bs.drop 80) = .ok ((bs.drop 80).take 16, bs.drop 96) := by
    have hlen : 16 ≤ (bs.drop 80).length := by simp; omega
    rw [takeN_of_le hlen, List.drop_drop]
  have heval : leadRead bs =
      (if beVal (bs.take 4) ≠ 0xedabeedb then
        .error "Not an RPM package (invalid magic number)" else
      if beVal ((bs.drop 4).take 1) ≠ 3 ∨ beVal ((bs.drop 5).take 1) ≠ 0 then
        .error ("Cannot read RPM format version " ++ numToStr (beVal ((bs.drop 4).take 1)) ++
          "." ++ numToStr (beVal ((bs.drop 5).take 1)) ++ " (only version 3.0 is supported)") else
      match PackageType.from_number (beVal ((bs.drop 6).take 2)) with
      | none => .error ("Invalid package type (" ++ numToStr (beVal ((bs.drop 6).take 2)) ++ ")")
      | some pt =>
        if beVal ((bs.drop 76).take 2) ≠ 1 then
          .error ("Invalid RPM OS number (" ++ numToStr (beVal ((bs.drop 76).take 2)) ++ ")") else
        if beVal ((bs.drop 78).take 2) ≠ 5 then
          .error ("Invalid RPM signature type (" ++ numToStr (beVal ((bs.drop 78).take 2)) ++ ")")
        else .ok (⟨pt, trimTrailingZeros ((bs.drop 10).take 66)⟩, bs.drop 96)) := by
    simp only [leadRead, hr0, hr 1 4 5 (by norm_num) (by norm_num),
      hr 1 5 6 (by norm_num) (by norm_num), hr 2 6 8 (by norm_num) (by norm_num),
      hr 2 8 10 (by norm_num) (by norm_num), ht66, hr 2 76 78 (by norm_num) (by norm_num),
      hr 2 78 80 (by norm_num) (by norm_num), ht16]
  rw [heval]
  constructor
  · by_cases hmagic : beVal (bs.take 4) = 0xedabeedb <;>
      by_cases hvmaj : beVal ((bs.drop 4).take 1) = 3 <;>
        by_cases hvmin : beVal ((bs.drop 5).take 1) = 0 <;>
          by_cases hos : beVal ((bs.drop 76).take 2) = 1 <;>
            by_cases hsig : beVal ((bs.drop 78).take 2) = 5 <;>
              rcases hpt : PackageType.from_number (beVal ((bs.drop 6).take 2))
                with _ | pt <;>
                simp_all [isErr, PackageType.from_number] <;>
                  split_ifs at hpt <;> simp_all
  · intro hmagic
    simp [hmagic]

/-- Witness for C6: a 96-byte buffer with a wrong magic number fails with
exactly the invalid-magic message. -/
theorem claim_c6_witness :
    leadRead (List.replicate 96 7) = .error "Not an RPM package (invalid magic number)" :=
  (claim_c6_lead_read_errors (List.replicate 96 7) (by decide) (by decide)).2 (by decide)

/-- Claim C8 counterexample: the 2-byte name `[97, 0]` (length ≤ 65) does
not survive a lead-section write/read round trip — the trailing NUL byte is
trimmed on read, so the name comes back as `[97]`. -/
theorem claim_c8_counterexample :
    ([97, 0] : Bytes).length ≤ 65 ∧
    leadRead (leadWrite ⟨PackageType.Binary, [97, 0]⟩)
      = .ok (⟨PackageType.Binary, [97]⟩, []) ∧
    ([97] : Bytes) ≠ [97, 0] := by
  refine ⟨by decide, ?_, by decide⟩
  decide

/-- Claim C8 (amended): for every package type and every name of at most 65
bytes whose last byte is not NUL, writing a lead section and reading it back
restores both the package type and the name exactly. -/
theorem claim_c8_lead_round_trip (pt : PackageType) (name : Bytes)
    (h1 : name.length ≤ 65) (h2 : name.getLast? ≠ some 0) :
    leadRead (leadWrite ⟨pt, name⟩) = .ok (⟨pt, name⟩, []) := by
  have h := leadRead_leadWrite ⟨pt, name⟩ []
  rw [List.append_nil] at h
  rw [h]
  have htake : name.take 65 = name := List.take_of_length_le h1
  have hfield : name66 name = name ++ List.replicate (65 - name.length + 1) 0 := by
    rw [name66, htake, List.append_assoc]
    congr 1
    rw [← List.replicate_succ' (n := 65 - name.length)]
  rw [hfield, trimTrailingZeros_append_zeros h2]

/-- Witness for C8 (amended): a concrete round trip through the lead
section. -/
theorem claim_c8_lead_round_trip_witness :
    leadRead (leadWrite ⟨PackageType.Source, str "foobar-1.4.0-123"⟩)
      = .ok (⟨PackageType.Source, str "foobar-1.4.0-123"⟩, []) :=
  claim_c8_lead_round_trip PackageType.Source (str "foobar-1.4.0-123")
    (by decide) (by decide)

/-- Claim C7: timestamp conversion round-trips on the tested seconds values,
clamps pre-epoch times to 0, and clamps times at or beyond `2^32` seconds
after the epoch to `0xFFFFFFFF`. -/
theorem claim_c7_timestamp_conversion :
    (∀ x ∈ ([0, 54321, 1520908554, 0xffffffff] : List Nat),
       system_time_to_u32 (u32_to_system_time x) = x) ∧
    (∀ t : Int, t < 0 → system_time_to_u32 t = 0) ∧
    (∀ t : Int, (2 ^ 32) * 1000000000 ≤ t →
       system_time_to_u32 t = 0xffffffff) := by
  refine ⟨by decide, ?_, ?_⟩
  · intro t ht
    simp [system_time_to_u32, ht]
  · intro t ht
    have ht2 : (4294967296000000000 : Int) ≤ t := by
      have h32 : ((2 ^ 32 : Int) * 1000000000) = 4294967296000000000 := by norm_num
      rw [h32] at ht
      exact ht
    clear ht
    have h0 : ¬ t < 0 := by omega
    have htn : 4294967295000000000 ≤ t.toNat := by omega
    have hge : 4294967295 ≤ t.toNat / 1000000000 :=
      (Nat.le_div_iff_mul_le (by norm_num)).mpr htn
    simp [system_time_to_u32, h0, hge]

/-! ### `internal/index.rs`: typed index tables -/

/-- A type of value stored in a header table. -/
inductive IndexType
  | Null
  | Char
  | Int8
  | Int16
  | Int32
  | Int64
  | String
  | Binary
  | StringArray
  | I18nString
deriving DecidableEq

namespace IndexType

/-- `IndexType::number`. -/
def number : IndexType → Nat
  | .Null => 0
  | .Char => 1
  | .Int8 => 2
  | .Int16 => 3
  | .Int32 => 4
  | .Int64 => 5
  | .String => 6
  | .Binary => 7
  | .StringArray => 8
  | .I18nString => 9

/-- `IndexType::from_number` (the argument is an `i32`). -/
def from_number (n : Int) : Option IndexType :=
  if n = 0 then some .Null
  else if n = 1 then some .Char
  else if n = 2 then some .Int8
  else if n = 3 then some .Int16
  else if n = 4 then some .Int32
  else if n = 5 then some .Int64
  else if n = 6 then some .String
  else if n = 7 then some .Binary
  else if n = 8 then some .StringArray
  else if n = 9 then some .I18nString
  else none

/-- `IndexType::alignment`. -/
def alignment : IndexType → Nat
  | .Null => 1
  | .Char => 1
  | .Int8 => 1
  | .Int16 => 2
  | .Int32 => 4
  | .Int64 => 8
  | .String => 1
  | .Binary => 1
  | .StringArray => 1
  | .I18nString => 1

end IndexType

/-- A value stored in an index table.  Rust `String`s are represented by
their UTF-8 bytes; the numeric array variants hold the unsigned values of
the `u16`/`u32`/`u64` elements. -/
inductive IndexValue
  | Null
  | Char (a : Bytes)
  | Int8 (a : Bytes)
  | Int16 (a : List Nat)
  | Int32 (a : List Nat)
  | Int64 (a : List Nat)
  | String (s : Bytes)
  | Binary (a : Bytes)
  | StringArray (l : List Bytes)
  | I18nString (l : List Bytes)
deriving DecidableEq

namespace IndexValue

/-- `IndexValue::index_type`. -/
def index_type : IndexValue → IndexType
  | .Null => .Null
  | .Char _ => .Char
  | .Int8 _ => .Int8
  | .Int16 _ => .Int16
  | .Int32 _ => .Int32
  | .Int64 _ => .Int64
  | .String _ => .String
  | .Binary _ => .Binary
  | .StringArray _ => .StringArray
  | .I18nString _ => .I18nString

/-- `IndexValue::count`. -/
def count : IndexValue → Nat
  | .Null => 1
  | .Char a => a.length
  | .Int8 a => a.length
  | .Int16 a => a.length
  | .Int32 a => a.length
  | .Int64 a => a.length
  | .String _ => 1
  | .Binary a => a.length
  | .StringArray l => l.length
  | .I18nString l => l.length

/-- `IndexValue::write`: the encoded bytes of a value. -/
def encode : IndexValue → Bytes
  | .Null => []
  | .Char a => a
  | .Int8 a => a
  | .Int16 a => (a.map (beBytes 2)).join
  | .Int32 a => (a.map (beBytes 4)).join
  | .Int64 a => (a.map (beBytes 8)).join
  | .String s => s ++ [0]
  | .Binary a => a
  | .StringArray l => (l.map (fun s => s ++ [0])).join
  | .I18nString l => (l.map (fun s => s ++ [0])).join

end IndexValue

/-- `IndexType::default_value`. -/
def IndexType.default_value : IndexType → IndexValue
  | .Null => .Null
  | .Char => .Char []
  | .Int8 => .Int8 []
  | .Int16 => .Int16 []
  | .Int32 => .Int32 []
  | .Int64 => .Int64 []
  | .String => .String []
  | .Binary => .Binary []
  | .StringArray => .StringArray []
  | .I18nString => .I18nString []

/-! #### Sorted association lists, modelling `BTreeMap<i32, _>` -/

/-- `BTreeMap::get`. -/
def mget {α : Type} (tag : Int) : List (Int × α) → Option α
  | [] => none
  | (k, v) :: rest => if k = tag then some v else mget tag rest

/-- `BTreeMap::contains_key`. -/
def mcontains {α : Type} (tag : Int) (m : List (Int × α)) : Bool :=
  (mget tag m).isSome

/-- `BTreeMap::insert`, keeping the list sorted by key. -/
def minsert {α : Type} (tag : Int) (v : α) : List (Int × α) → List (Int × α)
  | [] => [(tag, v)]
  | (k, w) :: rest =>
    if tag < k then (tag, v) :: (k, w) :: rest
    else if tag = k then (tag, v) :: rest
    else (k, w) :: minsert tag v rest

/-- Are the keys strictly ascending (the `BTreeMap` iteration invariant)? -/
def sortedKeys {α : Type} : List (Int × α) → Bool
  | [] => true
  | [_] => true
  | a :: b :: rest => decide (a.1 < b.1) && sortedKeys (b :: rest)

/-- An `IndexTable`: its `BTreeMap<i32, IndexValue>` as a sorted
association list. -/
abbrev Table := List (Int × IndexValue)

/-! #### Reading values (`IndexValue::read`) -/

/-- `read_nul_terminated_string`: read bytes up to (and consuming) the
first NUL, then validate UTF-8.  A missing NUL runs off the end of the
buffer (an EOF error). -/
def readNulStr (bs : Bytes) : Except String (Bytes × Bytes) :=
  if bs.contains 0 then
    let s := bs.takeWhile (fun b => b != 0)
    if isUtf8 s then .ok (s, bs.drop (s.length + 1))
    else .error "Invalid UTF-8 in header string entry"
  else .error "failed to fill whole buffer"

/-- Read `n` big-endian `k`-byte integers. -/
def readArr (k : Nat) : Nat → Bytes → Except String (List Nat × Bytes)
  | 0, bs => .ok ([], bs)
  | n + 1, bs =>
    match readBE k bs with
    | .error e => .error e
    | .ok (v, bs1) =>
      match readArr k n bs1 with
      | .error e => .error e
      | .ok (vs, bs2) => .ok (v :: vs, bs2)

/-- Read `n` NUL-terminated strings. -/
def readStrs : Nat → Bytes → Except String (List Bytes × Bytes)
  | 0, bs => .ok ([], bs)
  | n + 1, bs =>
    match readNulStr bs with
    | .error e => .error e
    | .ok (s, bs1) =>
      match readStrs n bs1 with
      | .error e => .error e
      | .ok (ss, bs2) => .ok (s :: ss, bs2)

/-- `IndexValue::read`. -/
def readValue (t : IndexType) (cnt : Nat) (bs : Bytes) :
    Except String (IndexValue × Bytes) :=
  match t with
  | .Null => .ok (.Null, bs)
  | .Char =>
    match takeN cnt bs with
    | .error e => .error e
    | .ok (a, r) => .ok (.Char a, r)
  | .Int8 =>
    match takeN cnt bs with
    | .error e => .error e
    | .ok (a, r) => .ok (.Int8 a, r)
  | .Int16 =>
    match readArr 2 cnt bs with
    | .error e => .error e
    | .ok (a, r) => .ok (.Int16 a, r)
  | .Int32 =>
    match readArr 4 cnt bs with
    | .error e => .error e
    | .ok (a, r) => .ok (.Int32 a, r)
  | .Int64 =>
    match readArr 8 cnt bs with
    | .error e => .error e
    | .ok (a, r) => .ok (.Int64 a, r)
  | .String =>
    if cnt ≠ 1 then
      .error ("Invalid count in index entry for type String (was " ++
        numToStr cnt ++ ", but must be 1)")
    else
      match readNulStr bs with
      | .error e => .error e
      | .ok (s, r) => .ok (.String s, r)
  | .Binary =>
    match takeN cnt bs with
    | .error e => .error e
    | .ok (a, r) => .ok (.Binary a, r)
  | .StringArray =>
    match readStrs cnt bs with
    | .error e => .error e
    | .ok (l, r) => .ok (.StringArray l, r)
  | .I18nString =>
    match readStrs cnt bs with
    | .error e => .error e
    | .ok (l, r) => .ok (.I18nString l, r)

/-! #### Writing a table (`IndexTable::write`) -/

/-- Zero padding needed to align position `n` to a multiple of `al`. -/
def padLen (al n : Nat) : Nat := if n % al = 0 then 0 else al - n % al

/-- Pad the data region to a multiple of 8 bytes. -/
def pad8 (data : Bytes) : Bytes := data ++ List.replicate (padLen 8 data.length) 0

/-- Build the data region: for each entry (in ascending tag order), align,
record the offset, and append the encoded value.  Returns the data region
and the per-entry `(tag, value, offset)` index list. -/
def buildData : Table → Bytes → Bytes × List (Int × IndexValue × Nat)
  | [], data => (data, [])
  | (tag, v) :: rest, data =>
    let d2 := data ++ List.replicate (padLen v.index_type.alignment data.length) 0
    let off := d2.length
    let p := buildData rest (d2 ++ v.encode)
    (p.1, (tag, v, off) :: p.2)

/-- The 16 bytes of one on-disk index entry. -/
def entryBytes (e : Int × IndexValue × Nat) : Bytes :=
  beBytes 4 (i32enc e.1) ++ beBytes 4 e.2.1.index_type.number ++
  beBytes 4 e.2.2 ++ beBytes 4 e.2.1.count

/-- `IndexTable::write`. -/
def tableWrite (pad : Bool) (t : Table) : Bytes :=
  let p := buildData t []
  let data := if pad then pad8 p.1 else p.1
  beBytes 4 0x8eade801 ++ beBytes 4 0 ++ beBytes 4 t.length ++
  beBytes 4 data.length ++ (p.2.map entryBytes).join ++ data

/-! #### Reading a table (`IndexTable::read`) -/

/-- One parsed index entry: type, offset, count. -/
abbrev IndexEntry := IndexType × Nat × Nat

/-- Read `n` 16-byte index entries, rejecting repeated tags. -/
def readEntries : Nat → Bytes → List (Int × IndexEntry) →
    Except String (List (Int × IndexEntry) × Bytes)
  | 0, bs, acc => .ok (acc, bs)
  | n + 1, bs, acc =>
    match readI32 bs with
    | .error e => .error e
    | .ok (tag, bs1) =>
      if mcontains tag acc then
        .error ("Repeated tag in index table (" ++ intToStr tag ++ ")")
      else
        match readI32 bs1 with
        | .error e => .error e
        | .ok (tynum, bs2) =>
          match IndexType.from_number tynum with
          | none => .error ("Invalid type number in index entry (" ++ intToStr tynum ++ ")")
          | some ty =>
            match readBE 4 bs2 with
            | .error e => .error e
            | .ok (off, bs3) =>
              match readBE 4 bs3 with
              | .error e => .error e
              | .ok (cnt, bs4) => readEntries n bs4 (minsert tag (ty, off, cnt) acc)

/-- Parse one value at its stated offset in the data region (the `Cursor`
seek plus `IndexValue::read`). -/
def readValueAt (data : Bytes) (off : Nat) (ty : IndexType) (cnt : Nat) :
    Except String IndexValue :=
  match readValue ty cnt (data.drop off) with
  | .error e => .error e
  | .ok (v, _) => .ok v

/-- Parse all values, in ascending tag order. -/
def readValues (data : Bytes) : List (Int × IndexEntry) → Table → Except String Table
  | [], acc => .ok acc
  | (tag, e) :: rest, acc =>
    match readValueAt data e.2.1 e.1 e.2.2 with
    | .error err => .error err
    | .ok v => readValues data rest (minsert tag v acc)

/-- `IndexTable::read`. -/
def tableRead (pad : Bool) (bs : Bytes) : Except String (Table × Bytes) :=
  match readBE 4 bs with
  | .error e => .error e
  | .ok (magic, bs1) =>
    if magic ≠ 0x8eade801 then
      .error ("Invalid magic number for index table (" ++ numToStr magic ++ ")")
    else
      match readBE 4 bs1 with
      | .error e => .error e
      | .ok (reserved, bs2) =>
        if reserved ≠ 0 then
          .error ("Invalid reserved field for index table (" ++ numToStr reserved ++ ")")
        else
          match readBE 4 bs2 with
          | .error e => .error e
          | .ok (numValues, bs3) =>
            match readBE 4 bs3 with
            | .error e => .error e
            | .ok (ds0, bs4) =>
              let dataSize := if pad then ((ds0 + 7) / 8) * 8 else ds0
              match readEntries numValues bs4 [] with
              | .error e => .error e
              | .ok (entries, bs5) =>
                match takeN dataSize bs5 with
                | .error e => .error e
                | .ok (data, bs6) =>
                  match readValues data entries [] with
                  | .error e => .error e
                  | .ok t => .ok (t, bs6)

/-! #### Well-formedness (what the Rust types guarantee by construction) -/

/-- Facts about an `IndexValue` that hold by the Rust types: `u16`/`u32`/
`u64` array elements are in range, and strings are valid Rust `String`s
that moreover contain no NUL byte (required for the string encoding to
round-trip). -/
def valueWFb : IndexValue → Bool
  | .Null => true
  | .Char _ => true
  | .Int8 _ => true
  | .Binary _ => true
  | .Int16 a => a.all (fun v => decide (v < 2 ^ 16))
  | .Int32 a => a.all (fun v => decide (v < 2 ^ 32))
  | .Int64 a => a.all (fun v => decide (v < 2 ^ 64))
  | .String s => strWF s
  | .StringArray l => l.all strWF
  | .I18nString l => l.all strWF

/-- Well-formedness of one table entry: the value is well-formed, its count
fits in a `u32`, and its tag fits in an `i32`. -/
def entryWFb (e : Int × IndexValue) : Bool :=
  valueWFb e.2 && decide (e.2.count < 2 ^ 32) && decide (InI32 e.1)

/-- Well-formedness of a table: every entry is well-formed and the entry
count and data-region length fit in a `u32`. -/
def tableWFb (t : Table) : Bool :=
  t.all entryWFb && decide (t.length < 2 ^ 32) &&
    decide ((buildData t []).1.length + 7 < 2 ^ 32)

/-! #### Index-table round-trip lemmas -/

theorem readArr_encode (k : Nat) (a : List Nat) (h : ∀ v ∈ a, v < 256 ^ k) (r : Bytes) :
    readArr k a.length ((a.map (beBytes k)).join ++ r) = .ok (a, r) := by
  induction a with
  | nil => simp [readArr]
  | cons x xs ih =>
      have hx : x < 256 ^ k := h x (by simp)
      have hxs : ∀ v ∈ xs, v < 256 ^ k := fun v hv => h v (by simp [hv])
      simp only [List.map_cons, List.join, List.flatten_cons, List.length_cons,
        List.append_assoc, readArr, readBE_beBytes hx, ih hxs]

theorem takeWhile_append_nul {s : Bytes} (h : ∀ b ∈ s, b ≠ 0) (r : Bytes) :
    (s ++ 0 :: r).takeWhile (fun b => b != 0) = s := by
  induction s with
  | nil => simp [List.takeWhile]
  | cons b bs ih =>
      have hb : b ≠ 0 := h b (by simp)
      have hbs : ∀ x ∈ bs, x ≠ 0 := fun x hx => h x (by simp [hx])
      simp only [List.cons_append, List.takeWhile]
      have : (b != 0) = true := by simpa using hb
      simp [this, ih hbs]

theorem drop_append_nul (s : Bytes) (r : Bytes) :
    (s ++ 0 :: r).drop (s.length + 1) = r := by
  have he : s ++ 0 :: r = (s ++ [0]) ++ r := by simp
  have hl : (s ++ [0]).length = s.length + 1 := by simp
  rw [he, ← hl, List.drop_left]

theorem readNulStr_encode {s : Bytes} (hwf : strWF s = true) (r : Bytes) :
    readNulStr (s ++ 0 :: r) = .ok (s, r) := by
  have h0 : s.contains 0 = false := by
    unfold strWF at hwf
    cases hc : s.contains 0
    · rfl
    · rw [hc] at hwf; simp at hwf
  have hu : isUtf8 s = true := by
    unfold strWF at hwf
    cases hc : isUtf8 s
    · rw [hc] at hwf; simp at hwf
    · rfl
  have hmem : (0 : Nat) ∉ s := by simpa using h0
  have hne : ∀ b ∈ s, b ≠ 0 := fun b hb hbeq => hmem (hbeq ▸ hb)
  unfold readNulStr
  have hc : (s ++ 0 :: r).contains 0 = true := by simp
  rw [hc]
  simp only [if_true, takeWhile_append_nul hne, hu, drop_append_nul]

theorem readStrs_encode (l : List Bytes) (h : ∀ s ∈ l, strWF s = true) (r : Bytes) :
    readStrs l.length ((l.map (fun s => s ++ [0])).join ++ r) = .ok (l, r) := by
  induction l with
  | nil => simp [readStrs]
  | cons s ss ih =>
      have hs : strWF s = true := h s (by simp)
      have hss : ∀ x ∈ ss, strWF x = true := fun x hx => h x (by simp [hx])
      simp only [List.map_cons, List.join, List.flatten_cons, List.length_cons,
        List.append_assoc, List.singleton_append, List.cons_append, readStrs]
      rw [readNulStr_encode hs]
      simp [ih hss]

theorem readValue_encode (v : IndexValue) (h : valueWFb v = true) (r : Bytes) :
    readValue v.index_type v.count (v.encode ++ r) = .ok (v, r) := by
  cases v with
  | Null => simp [readValue, IndexValue.index_type, IndexValue.count, IndexValue.encode]
  | Char a =>
      simp [readValue, IndexValue.index_type, IndexValue.count, IndexValue.encode, takeN_append]
  | Int8 a =>
      simp [readValue, IndexValue.index_type, IndexValue.count, IndexValue.encode, takeN_append]
  | Binary a =>
      simp [readValue, IndexValue.index_type, IndexValue.count, IndexValue.encode, takeN_append]
  | Int16 a =>
      unfold valueWFb at h
      have ha : ∀ x ∈ a, x < 256 ^ 2 := by
        intro x hx
        have hx2 := List.all_eq_true.mp h x hx
        simp only [decide_eq_true_eq] at hx2
        have h2 : (256 : Nat) ^ 2 = 2 ^ 16 := by norm_num
        rw [h2]; exact hx2
      simp [readValue, IndexValue.index_type, IndexValue.count, IndexValue.encode,
        readArr_encode 2 a ha]
  | Int32 a =>
      unfold valueWFb at h
      have ha : ∀ x ∈ a, x < 256 ^ 4 := by
        intro x hx
        have hx2 := List.all_eq_true.mp h x hx
        simp only [decide_eq_true_eq] at hx2
        have h2 : (256 : Nat) ^ 4 = 2 ^ 32 := by norm_num
        rw [h2]; exact hx2
      simp [readValue, IndexValue.index_type, IndexValue.count, IndexValue.encode,
        readArr_encode 4 a ha]
  | Int64 a =>
      unfold valueWFb at h
      have ha : ∀ x ∈ a, x < 256 ^ 8 := by
        intro x hx
        have hx2 := List.all_eq_true.mp h x hx
        simp only [decide_eq_true_eq] at hx2
        have h2 : (256 : Nat) ^ 8 = 2 ^ 64 := by norm_num
        rw [h2]; exact hx2
      simp [readValue, IndexValue.index_type, IndexValue.count, IndexValue.encode,
        readArr_encode 8 a ha]
  | String s =>
      have hs : strWF s = true := by
        unfold valueWFb at h; exact h
      simp [readValue, IndexValue.index_type, IndexValue.count, IndexValue.encode,
        List.append_assoc, List.singleton_append, readNulStr_encode hs]
  | StringArray l =>
      unfold valueWFb at h
      have hl : ∀ s ∈ l, strWF s = true := fun s hs => List.all_eq_true.mp h s hs
      simp [readValue, IndexValue.index_type, IndexValue.count, IndexValue.encode,
        readStrs_encode l hl]
  | I18nString l =>
      unfold valueWFb at h
      have hl : ∀ s ∈ l, strWF s = true := fun s hs => List.all_eq_true.mp h s hs
      simp [readValue, IndexValue.index_type, IndexValue.count, IndexValue.encode,
        readStrs_encode l hl]

theorem buildData_fst_ext (t : Table) (data : Bytes) :
    ∃ ext, (buildData t data).1 = data ++ ext := by
  induction t generalizing data with
  | nil => exact ⟨[], by simp [buildData]⟩
  | cons e rest ih =>
      obtain ⟨tag, v⟩ := e
      obtain ⟨ext, hext⟩ :=
        ih ((data ++ List.replicate (padLen v.index_type.alignment data.length) 0) ++ v.encode)
      refine ⟨List.replicate (padLen v.index_type.alignment data.length) 0 ++ (v.encode ++ ext),
        ?_⟩
      show (buildData rest
        ((data ++ List.replicate (padLen v.index_type.alignment data.length) 0) ++ v.encode)).1
          = _
      rw [hext]
      simp [List.append_assoc]

theorem buildData_shape (t : Table) (data : Bytes) :
    (buildData t data).2.map (fun e => (e.1, e.2.1)) = t := by
  induction t generalizing data with
  | nil => simp [buildData]
  | cons e rest ih =>
      obtain ⟨tag, v⟩ := e
      show ((tag, v, _) ::
        (buildData rest _).2).map (fun e => (e.1, e.2.1)) = _
      simp only [List.map_cons, ih]

theorem buildData_entries_spec (t : Table) (data : Bytes) :
    ∀ e ∈ (buildData t data).2, ∃ tail,
      (buildData t data).1.drop e.2.2 = e.2.1.encode ++ tail ∧
      e.2.2 + e.2.1.encode.length ≤ (buildData t data).1.length := by
  induction t generalizing data with
  | nil => simp [buildData]
  | cons hd rest ih =>
      obtain ⟨tag, v⟩ := hd
      intro e he
      have hmem : e = (tag, v,
          (data ++ List.replicate (padLen v.index_type.alignment data.length) 0).length) ∨
          e ∈ (buildData rest
            ((data ++ List.replicate (padLen v.index_type.alignment data.length) 0)
              ++ v.encode)).2 := by
        have : e ∈ (tag, v,
            (data ++ List.replicate (padLen v.index_type.alignment data.length) 0).length) ::
            (buildData rest
              ((data ++ List.replicate (padLen v.index_type.alignment data.length) 0)
                ++ v.encode)).2 := he
        simpa using this
      have hfst : (buildData ((tag, v) :: rest) data).1 =
          (buildData rest
            ((data ++ List.replicate (padLen v.index_type.alignment data.length) 0)
              ++ v.encode)).1 := rfl
      rcases hmem with he2 | he2
      · subst he2
        obtain ⟨ext, hext⟩ := buildData_fst_ext rest
          ((data ++ List.replicate (padLen v.index_type.alignment data.length) 0) ++ v.encode)
        refine ⟨ext, ?_, ?_⟩
        · rw [hfst, hext]
          rw [List.append_assoc]
          exact List.drop_left _ _
        · rw [hfst, hext]
          simp
          omega
      · obtain ⟨tail, htail, hlen⟩ := ih
          ((data ++ List.replicate (padLen v.index_type.alignment data.length) 0) ++ v.encode)
          e he2
        exact ⟨tail, by rw [hfst]; exact htail, by rw [hfst]; exact hlen⟩

theorem mget_none {α : Type} {acc : List (Int × α)} {k : Int}
    (h : ∀ p ∈ acc, p.1 < k) : mget k acc = none := by
  induction acc with
  | nil => rfl
  | cons p rest ih =>
      have hp : p.1 < k := h p (by simp)
      have : ¬ p.1 = k := by omega
      simp only [mget, this, if_false]
      exact ih (fun q hq => h q (by simp [hq]))

theorem minsert_append {α : Type} {acc : List (Int × α)} {k : Int} (v : α)
    (h : ∀ p ∈ acc, p.1 < k) : minsert k v acc = acc ++ [(k, v)] := by
  induction acc with
  | nil => rfl
  | cons p rest ih =>
      have hp : p.1 < k := h p (by simp)
      have h1 : ¬ k < p.1 := by omega
      have h2 : ¬ k = p.1 := by omega
      obtain ⟨pk, pv⟩ := p
      simp only [minsert, h1, h2, if_false]
      rw [ih (fun q hq => h q (by simp [hq]))]
      simp

theorem sortedKeys_chain {α : Type} (l : List (Int × α)) :
    sortedKeys l = true ↔ List.Chain' (· < ·) (l.map (fun e => e.1)) := by
  induction l with
  | nil => simp [sortedKeys]
  | cons a rest ih =>
      cases rest with
      | nil => simp [sortedKeys]
      | cons b r2 =>
          simp only [sortedKeys, List.map_cons, Bool.and_eq_true, decide_eq_true_eq,
            List.chain'_cons]
          rw [← List.map_cons]
          rw [ih]

theorem sortedKeys_pairwise {α : Type} (l : List (Int × α)) (h : sortedKeys l = true) :
    List.Pairwise (· < ·) (l.map (fun e => e.1)) :=
  List.chain'_iff_pairwise.mp ((sortedKeys_chain l).mp h)

theorem number_lt (ty : IndexType) : ty.number < 2 ^ 31 := by cases ty <;> simp [IndexType.number]

theorem from_number_number (ty : IndexType) :
    IndexType.from_number (ty.number : Int) = some ty := by
  cases ty <;> rfl

theorem readI32_smallNat {n : Nat} (h : n < 2 ^ 31) (r : Bytes) :
    readI32 (beBytes 4 n ++ r) = .ok ((n : Int), r) := by
  have h4 : n < 256 ^ 4 := by
    have : (256 : Nat) ^ 4 = 2 ^ 32 := by norm_num
    omega
  have h31 : n < 2147483648 := by
    have he : (2 : Nat) ^ 31 = 2147483648 := by norm_num
    omega
  simp [readI32, readBE_beBytes h4, Except.map, i32ofNat, h31]

theorem readEntries_spec (ents : List (Int × IndexValue × Nat)) (rest : Bytes) :
    ∀ acc : List (Int × IndexEntry),
      List.Pairwise (· < ·) (acc.map (fun e => e.1) ++ ents.map (fun e => e.1)) →
      (∀ e ∈ ents, InI32 e.1 ∧ e.2.2 < 256 ^ 4 ∧ e.2.1.count < 256 ^ 4) →
      readEntries ents.length ((ents.map entryBytes).join ++ rest) acc
        = .ok (acc ++ ents.map (fun e => (e.1, (e.2.1.index_type, e.2.2, e.2.1.count))), rest) := by
  induction ents with
  | nil => intro acc _ _; simp [readEntries]
  | cons e es ih =>
      intro acc hpw hwf
      obtain ⟨tag, v, off⟩ := e
      obtain ⟨htag, hoff, hcnt⟩ := hwf (tag, v, off) (by simp)
      simp only at htag hoff hcnt
      have hacc_lt : ∀ p ∈ acc, p.1 < tag := by
        intro p hp
        have := (List.pairwise_append.mp hpw).2.2
        exact this p.1 (List.mem_map_of_mem _ hp) tag (by simp)
      have hcontains : mcontains tag acc = false := by
        simp [mcontains, mget_none hacc_lt]
      simp only [List.map_cons, List.join, List.flatten_cons, List.length_cons,
        List.append_assoc, readEntries, entryBytes]
      simp only [readI32_enc htag, hcontains, Bool.false_eq_true, if_false,
        readI32_smallNat (number_lt v.index_type), from_number_number,
        readBE_beBytes hoff, readBE_beBytes hcnt]
      rw [minsert_append _ hacc_lt]
      have hpw2 : List.Pairwise (· < ·)
          ((acc ++ [(tag, (v.index_type, off, v.count))]).map (fun e => e.1) ++
            es.map (fun e => e.1)) := by
        have he : (acc ++ [(tag, (v.index_type, off, v.count))]).map (fun e => e.1) ++
            es.map (fun e => e.1) = acc.map (fun e => e.1) ++
              ((tag, v, off) :: es).map (fun e => e.1) := by
          simp
        rw [he]
        exact hpw
      rw [ih (acc ++ [(tag, (v.index_type, off, v.count))]) hpw2
        (fun q hq => hwf q (by simp [hq]))]
      simp

theorem readValues_spec (dataF : Bytes) (ents : List (Int × IndexValue × Nat))
    (hvals : ∀ e ∈ ents,
      readValueAt dataF e.2.2 e.2.1.index_type e.2.1.count = .ok e.2.1) :
    ∀ acc : Table,
      List.Pairwise (· < ·) (acc.map (fun e => e.1) ++ ents.map (fun e => e.1)) →
      readValues dataF (ents.map (fun e => (e.1, (e.2.1.index_type, e.2.2, e.2.1.count)))) acc
        = .ok (acc ++ ents.map (fun e => (e.1, e.2.1))) := by
  induction ents with
  | nil => intro acc _; simp [readValues]
  | cons e es ih =>
      intro acc hpw
      obtain ⟨tag, v, off⟩ := e
      have hv := hvals (tag, v, off) (by simp)
      simp only at hv
      have hacc_lt : ∀ p ∈ acc, p.1 < tag := by
        intro p hp
        have := (List.pairwise_append.mp hpw).2.2
        exact this p.1 (List.mem_map_of_mem _ hp) tag (by simp)
      simp only [List.map_cons, readValues]
      simp only [hv]
      rw [minsert_append _ hacc_lt]
      have hpw2 : List.Pairwise (· < ·)
          ((acc ++ [(tag, v)]).map (fun e => e.1) ++ es.map (fun e => e.1)) := by
        have he : (acc ++ [(tag, v)]).map (fun e => e.1) ++ es.map (fun e => e.1)
            = acc.map (fun e => e.1) ++ ((tag, v, off) :: es).map (fun e => e.1) := by
          simp
        rw [he]
        exact hpw
      rw [ih (fun q hq => hvals q (by simp [hq])) (acc ++ [(tag, v)]) hpw2]
      simp

theorem pad8_length_mod (d : Bytes) : (pad8 d).length % 8 = 0 := by
  simp only [pad8, List.length_append, List.length_replicate, padLen]
  split <;> omega

theorem pad8_length_le (d : Bytes) : (pad8 d).length ≤ d.length + 7 := by
  simp only [pad8, List.length_append, List.length_replicate, padLen]
  split <;> omega

theorem roundUp8_of_mod (n : Nat) (h : n % 8 = 0) : ((n + 7) / 8) * 8 = n := by omega

/-- The master round-trip theorem: reading back a written index table, with
the same pad setting and any following bytes, restores the table exactly
and consumes exactly the written bytes. -/
theorem tableRead_tableWrite (pad : Bool) (t : Table) (rest : Bytes)
    (hs : sortedKeys t = true) (hwf : tableWFb t = true) :
    tableRead pad (tableWrite pad t ++ rest) = .ok (t, rest) := by
  obtain ⟨hall, hlen, hdlen⟩ : t.all entryWFb = true ∧ t.length < 2 ^ 32 ∧
      (buildData t []).1.length + 7 < 2 ^ 32 := by
    have := hwf
    unfold tableWFb at this
    simp only [Bool.and_eq_true, decide_eq_true_eq] at this
    exact ⟨this.1.1, this.1.2, this.2⟩
  set d := (buildData t []).1 with hd
  set ents := (buildData t []).2 with hents
  set dataF : Bytes := if pad then pad8 d else d with hdataF
  have hdataF_len : dataF.length < 2 ^ 32 := by
    have hp8 := pad8_length_le d
    cases hp : pad <;> simp only [hdataF, hp, if_true, if_false, Bool.false_eq_true,
      reduceIte] <;> omega
  have h2to32 : (2 : Nat) ^ 32 = 256 ^ 4 := by norm_num
  -- facts about the entries produced by buildData
  have hshape : ents.map (fun e => (e.1, e.2.1)) = t := buildData_shape t []
  have htags : ents.map (fun e => e.1) = t.map (fun e => e.1) := by
    conv_rhs => rw [← hshape]
    simp
  have hpw : List.Pairwise (· < ·) (ents.map (fun e => e.1)) := by
    rw [htags]; exact sortedKeys_pairwise t hs
  have hentwf : ∀ e ∈ ents, entryWFb (e.1, e.2.1) = true := by
    intro e he
    have : (e.1, e.2.1) ∈ t := by
      rw [← hshape]
      exact List.mem_map_of_mem _ he
    exact List.all_eq_true.mp hall _ this
  have hespec := buildData_entries_spec t []
  have hconds : ∀ e ∈ ents, InI32 e.1 ∧ e.2.2 < 256 ^ 4 ∧ e.2.1.count < 256 ^ 4 := by
    intro e he
    have hw := hentwf e he
    unfold entryWFb at hw
    simp only [Bool.and_eq_true, decide_eq_true_eq] at hw
    obtain ⟨tail, _, hle⟩ := hespec e he
    have hle2 : e.2.2 ≤ d.length := by rw [hd]; omega
    refine ⟨hw.2, ?_, ?_⟩
    · rw [← h2to32]; omega
    · rw [← h2to32]; exact hw.1.2
  -- each value parses back at its offset in the (possibly padded) data
  have hvals : ∀ e ∈ ents,
      readValueAt dataF e.2.2 e.2.1.index_type e.2.1.count = .ok e.2.1 := by
    intro e he
    obtain ⟨tail, hdrop, hle⟩ := hespec e he
    have hwfv : valueWFb e.2.1 = true := by
      have hw := hentwf e he
      unfold entryWFb at hw
      simp only [Bool.and_eq_true, decide_eq_true_eq] at hw
      exact hw.1.1
    have hdropF : ∃ tail2, dataF.drop e.2.2 = e.2.1.encode ++ tail2 := by
      rcases hp : pad with _ | _
      · exact ⟨tail, by simpa [hdataF, hp] using hdrop⟩
      · refine ⟨tail ++ List.replicate (padLen 8 d.length) 0, ?_⟩
        have hle2 : e.2.2 ≤ d.length := by rw [hd]; omega
        simp only [hdataF, hp, if_true, pad8]
        rw [List.drop_append_of_le_length hle2, hdrop]
        simp
    obtain ⟨tail2, hdrop2⟩ := hdropF
    unfold readValueAt
    rw [hdrop2, readValue_encode _ hwfv]
  -- now evaluate the reader
  have hm : (0x8eade801 : Nat) < 256 ^ 4 := by norm_num
  have hz : (0 : Nat) < 256 ^ 4 := by norm_num
  have hlen4 : t.length < 256 ^ 4 := by rw [← h2to32]; exact hlen
  have hdlen4 : dataF.length < 256 ^ 4 := by rw [← h2to32]; exact hdataF_len
  have hlen_ents : ents.length = t.length := by
    rw [← hshape]; simp
  have hsz : (if pad = true then ((dataF.length + 7) / 8) * 8 else dataF.length)
      = dataF.length := by
    rcases hp : pad with _ | _
    · simp
    · simp only [if_true, reduceIte]
      exact roundUp8_of_mod _ (by simpa [hdataF, hp] using pad8_length_mod d)
  rw [tableWrite]
  simp only [← hd, ← hents, ← hdataF]
  rw [tableRead]
  simp only [List.append_assoc]
  simp only [readBE_beBytes hm, ne_eq, not_true_eq_false, if_false, reduceIte,
    readBE_beBytes hz, readBE_beBytes hlen4, readBE_beBytes hdlen4]
  simp only [← hlen_ents]
  rw [readEntries_spec ents (dataF ++ rest) [] (by simpa using hpw) hconds]
  simp only [List.nil_append]
  simp only [hsz, takeN_append]
  simp only [readValues_spec dataF ents hvals [] (by simpa using hpw), List.nil_append,
    hshape]

/-- Claim C2 counterexample: a table whose single value is the string
`"a\u{0}b"` — tags unique, the value a valid Rust `String` (valid UTF-8) —
does not survive a write/read round trip: reading stops at the embedded NUL
and returns `"a"`. -/
theorem claim_c2_counterexample :
    sortedKeys [((1000 : Int), IndexValue.String [97, 0, 98])] = true ∧
    isUtf8 [97, 0, 98] = true ∧
    tableRead false (tableWrite false [(1000, IndexValue.String [97, 0, 98])])
      = .ok ([(1000, IndexValue.String [97])], []) ∧
    ([((1000 : Int), IndexValue.String [97])] : Table)
      ≠ [(1000, IndexValue.String [97, 0, 98])] := by
  refine ⟨by decide, by decide, by decide, by decide⟩

/-- Claim C2 (amended): for every valid `IndexTable` — tags unique (sorted,
as the `BTreeMap` keeps them), values well-formed with counts below `2^32`
and the data region below `2^32`, and strings valid UTF-8 *containing no NUL
byte* — and for each pad setting, `IndexTable::read` applied to the bytes
produced by `IndexTable::write` with the same pad setting succeeds and
returns a table equal to the original. -/
theorem claim_c2_index_table_round_trip (pad : Bool) (t : Table)
    (hs : sortedKeys t = true) (hwf : tableWFb t = true) :
    tableRead pad (tableWrite pad t) = .ok (t, []) := by
  have h := tableRead_tableWrite pad t [] hs hwf
  simpa using h

/-- Witness for C2 (amended): a concrete table round trip with padding. -/
theorem claim_c2_witness :
    tableRead true (tableWrite true
        [(1000, IndexValue.Int32 [7]), (1006, IndexValue.String (str "abc"))])
      = .ok ([(1000, IndexValue.Int32 [7]), (1006, IndexValue.String (str "abc"))], []) :=
  claim_c2_index_table_round_trip true _ (by decide) (by decide)

/-! ### Typed accessors on tables (`IndexTable::get_*`) -/

/-- `IndexTable::get_string`. -/
def get_string (t : Table) (tag : Int) : Option Bytes :=
  match mget tag t with
  | some (.String s) => some s
  | _ => none

/-- `IndexTable::get_binary`. -/
def get_binary (t : Table) (tag : Int) : Option Bytes :=
  match mget tag t with
  | some (.Binary a) => some a
  | _ => none

/-- `IndexTable::get_string_array`. -/
def get_string_array (t : Table) (tag : Int) : Option (List Bytes) :=
  match mget tag t with
  | some (.StringArray l) => some l
  | _ => none

/-- `IndexTable::get_nth_string` (string arrays and i18n string arrays). -/
def get_nth_string (t : Table) (tag : Int) (n : Nat) : Option Bytes :=
  match mget tag t with
  | some (.StringArray l) => l[n]?
  | some (.I18nString l) => l[n]?
  | _ => none

/-- `IndexTable::get_nth_int16`. -/
def get_nth_int16 (t : Table) (tag : Int) (n : Nat) : Option Nat :=
  match mget tag t with
  | some (.Int16 l) => l[n]?
  | _ => none

/-- `IndexTable::get_nth_int32`. -/
def get_nth_int32 (t : Table) (tag : Int) (n : Nat) : Option Nat :=
  match mget tag t with
  | some (.Int32 l) => l[n]?
  | _ => none

/-! ### Schema validation (`IndexTable::validate`) -/

/-- One schema line: (required, name, tag, type, fixed count). -/
abbrev SchemaEntry := Bool × String × Int × IndexType × Option Nat

/-- `IndexTable::validate` for one schema line.  The error messages mirror
the Rust `invalid_data!` format strings (the "Missing … entry" one
verbatim). -/
def validateEntry (t : Table) (sect : String) (required : Bool) (name : String)
    (tag : Int) (itype : IndexType) (cnt : Option Nat) : Except String Unit :=
  match mget tag t with
  | some v =>
    if v.index_type ≠ itype then
      .error ("Incorrect type for " ++ name ++ " entry (tag " ++ intToStr tag ++
        ") in " ++ sect ++ " section")
    else
      match cnt with
      | some c =>
        if v.count ≠ c then
          .error ("Incorrect number of values for " ++ name ++ " entry (tag " ++
            intToStr tag ++ ") in " ++ sect ++ " section")
        else .ok ()
      | none => .ok ()
  | none =>
    if required then
      .error ("Missing " ++ name ++ " entry (tag " ++ intToStr tag ++ ") in " ++
        sect ++ " section")
    else .ok ()

/-- Validate a table against a schema, stopping at the first error. -/
def validateSchema (t : Table) (sect : String) : List SchemaEntry → Except String Unit
  | [] => .ok ()
  | e :: rest =>
    match validateEntry t sect e.1 e.2.1 e.2.2.1 e.2.2.2.1 e.2.2.2.2 with
    | .error err => .error err
    | .ok _ => validateSchema t sect rest

/-- `IndexTable::expect_count`. -/
def expect_count (t : Table) (sect : String) (name1 : String) (tag1 : Int)
    (count1 : Nat) (name2 : String) (tag2 : Int) : Except String Unit :=
  let count2 := ((mget tag2 t).map IndexValue.count).getD 0
  if count1 ≠ count2 then
    .error ("Counts for " ++ name1 ++ " entry (tag " ++ intToStr tag1 ++ ") and " ++
      name2 ++ " entry (tag " ++ intToStr tag2 ++ ") in " ++ sect ++
      " section do not match (" ++ numToStr count1 ++ " vs. " ++ numToStr count2 ++ ")")
  else .ok ()

/-- `IndexTable::expect_string_value`; the `get_string(tag).unwrap()` panics
when the tag is absent or not a string (modelled as a distinguished error,
unreachable after schema validation). -/
def expect_string_value (t : Table) (sect : String) (name : String) (tag : Int)
    (value : Bytes) : Except String Unit :=
  match get_string t tag with
  | none => .error "panic: unwrap of missing string entry"
  | some actual =>
    if actual ≠ value then
      .error ("Incorrect value for " ++ name ++ " entry (tag " ++ intToStr tag ++
        ") in " ++ sect ++ " section")
    else .ok ()

/-! ### `internal/signature.rs`: the Signature section -/

/-- The known index entries for the Signature section. -/
def signatureEntries : List SchemaEntry :=
  [(true,  "SIZE",         1000, .Int32,  some 1),
   (false, "PAYLOAD_SIZE", 1007, .Int32,  some 1),
   (false, "SHA1",         269,  .String, none),
   (true,  "MD5",          1004, .Binary, some 16)]

/-- The "Signature" section of an RPM package file. -/
structure SignatureSection where
  table : Table
deriving DecidableEq

namespace SignatureSection

/-- `SignatureSection::placeholder`: zeroed integrity fields. -/
def placeholder : SignatureSection :=
  ⟨minsert 1004 (.Binary (List.replicate 16 0))
    (minsert 1007 (.Int32 [0]) (minsert 1000 (.Int32 [0]) []))⟩

/-- `SignatureSection::header_sha1`. -/
def header_sha1 (s : SignatureSection) : Option Bytes := get_string s.table 269

/-- `SignatureSection::header_and_archive_md5`: `none` models the `unwrap`
panic on a missing/badly-typed entry and the 16-byte length assertion. -/
def header_and_archive_md5 (s : SignatureSection) : Option Bytes :=
  match get_binary s.table 1004 with
  | some h => if h.length = 16 then some h else none
  | none => none

/-- `SignatureSection::header_and_archive_size` (`none` models the `unwrap`
panic). -/
def header_and_archive_size (s : SignatureSection) : Option Nat :=
  get_nth_int32 s.table 1000 0

/-- `SignatureSection::uncompressed_archive_size`. -/
def uncompressed_archive_size (s : SignatureSection) : Option Nat :=
  get_nth_int32 s.table 1007 0

/-- `SignatureSection::set_header_and_archive_md5`. -/
def set_header_and_archive_md5 (s : SignatureSection) (md5 : Bytes) : SignatureSection :=
  ⟨minsert 1004 (.Binary md5) s.table⟩

/-- `SignatureSection::set_header_and_archive_size` (`size as u32`). -/
def set_header_and_archive_size (s : SignatureSection) (size : Nat) : SignatureSection :=
  ⟨minsert 1000 (.Int32 [size % 2 ^ 32]) s.table⟩

/-- `SignatureSection::set_uncompressed_archive_size` (`size as u32`). -/
def set_uncompressed_archive_size (s : SignatureSection) (size : Nat) : SignatureSection :=
  ⟨minsert 1007 (.Int32 [size % 2 ^ 32]) s.table⟩

end SignatureSection

/-- `SignatureSection::read`: parse with 8-byte padding, then validate. -/
def sigRead (bs : Bytes) : Except String (SignatureSection × Bytes) :=
  match tableRead true bs with
  | .error e => .error e
  | .ok (t, rest) =>
    match validateSchema t "Signature" signatureEntries with
    | .error e => .error e
    | .ok _ => .ok (⟨t⟩, rest)

/-- `SignatureSection::write`. -/
def sigWrite (s : SignatureSection) : Bytes := tableWrite true s.table

/-- The signature finalization performed by `ArchiveBuilder::do_finish`:
set the uncompressed archive size, the header+archive size, and the
header+archive MD5 on the placeholder. -/
def finalizeSignature (s : SignatureSection) (uncompressed size : Nat) (md5 : Bytes) :
    SignatureSection :=
  ((s.set_uncompressed_archive_size uncompressed).set_header_and_archive_size
    size).set_header_and_archive_md5 md5

/-! ### Schema validation inversion lemmas -/

theorem validateSchema_ok {t : Table} {sect : String} {entries : List SchemaEntry}
    (h : validateSchema t sect entries = .ok ()) :
    ∀ e ∈ entries, validateEntry t sect e.1 e.2.1 e.2.2.1 e.2.2.2.1 e.2.2.2.2 = .ok () := by
  induction entries with
  | nil => intro e he; cases he
  | cons a rest ih =>
      intro e he
      unfold validateSchema at h
      rcases hv : validateEntry t sect a.1 a.2.1 a.2.2.1 a.2.2.2.1 a.2.2.2.2 with err | u
      · rw [hv] at h; cases h
      · rw [hv] at h
        rcases List.mem_cons.mp he with he2 | he2
        · subst he2; rcases u; exact hv
        · exact ih h e he2

theorem validateEntry_required_ok {t : Table} {sect name : String} {tag : Int}
    {ty : IndexType} {cnt : Nat}
    (h : validateEntry t sect true name tag ty (some cnt) = .ok ()) :
    ∃ v, mget tag t = some v ∧ v.index_type = ty ∧ v.count = cnt := by
  unfold validateEntry at h
  rcases hm : mget tag t with _ | v
  · rw [hm] at h; simp at h
  · rw [hm] at h
    by_cases hty : v.index_type = ty
    · by_cases hc : v.count = cnt
      · exact ⟨v, rfl, hty, hc⟩
      · simp [hty, hc] at h
    · simp [hty] at h

theorem validateEntry_present_ok {t : Table} {sect name : String} {tag : Int}
    {ty : IndexType} {cnt : Option Nat} {req : Bool} {v : IndexValue}
    (hm : mget tag t = some v)
    (h : validateEntry t sect req name tag ty cnt = .ok ()) :
    v.index_type = ty ∧ (∀ c, cnt = some c → v.count = c) := by
  unfold validateEntry at h
  rw [hm] at h
  by_cases hty : v.index_type = ty
  · refine ⟨hty, ?_⟩
    intro c hc
    subst hc
    by_cases hcv : v.count = c
    · exact hcv
    · simp [hty, hcv] at h
  · simp [hty] at h

/-- Claim C10: after a successful `SignatureSection::read`, the accessors
`header_and_archive_size` and `header_and_archive_md5` cannot panic: SIZE
is present as an Int32 of count 1 and MD5 as a 16-byte Binary. -/
theorem claim_c10_signature_accessors_total (bs rest : Bytes) (s : SignatureSection)
    (h : sigRead bs = .ok (s, rest)) :
    (s.header_and_archive_md5).isSome = true ∧
    (s.header_and_archive_size).isSome = true := by
  unfold sigRead at h
  rcases htr : tableRead true bs with e | p
  · simp [htr] at h
  · obtain ⟨t, r⟩ := p
    rcases hv : validateSchema t "Signature" signatureEntries with e | u
    · simp [htr, hv] at h
    · rcases u
      simp only [htr, hv, Except.ok.injEq, Prod.mk.injEq] at h
      obtain ⟨hs1, hs2⟩ := h
      subst hs1
      have hall := validateSchema_ok hv
      have hsize := validateEntry_required_ok
        (hall (true, "SIZE", 1000, .Int32, some 1) (by simp [signatureEntries]))
      have hmd5 := validateEntry_required_ok
        (hall (true, "MD5", 1004, .Binary, some 16) (by simp [signatureEntries]))
      obtain ⟨v1, hm1, hty1, hc1⟩ := hsize
      obtain ⟨v2, hm2, hty2, hc2⟩ := hmd5
      constructor
      · cases v2 <;> simp [IndexValue.index_type] at hty2
        case Binary a =>
          simp [IndexValue.count] at hc2
          simp [SignatureSection.header_and_archive_md5, get_binary, hm2, hc2]
      · cases v1 <;> simp [IndexValue.index_type] at hty1
        case Int32 a =>
          simp [IndexValue.count] at hc1
          simp [SignatureSection.header_and_archive_size, get_nth_int32, hm1]
          cases a with
          | nil => simp at hc1
          | cons x l => simp

/-- Witness for C10: reading back the written placeholder signature. -/
theorem claim_c10_witness :
    ((SignatureSection.placeholder).header_and_archive_md5).isSome = true ∧
    ((SignatureSection.placeholder).header_and_archive_size).isSome = true :=
  claim_c10_signature_accessors_total (sigWrite SignatureSection.placeholder) []
    SignatureSection.placeholder (by decide)

/-- Claim C3: the placeholder signature and the finalized signature written
by `do_finish` populate exactly the same tags (SIZE 1000, MD5 1004,
PAYLOAD_SIZE 1007), with values of the same type and encoded length, and
their serialized byte lengths are equal. -/
theorem claim_c3_placeholder_same_length (uncompressed size : Nat) (md5 : Bytes)
    (h : md5.length = 16) :
    (finalizeSignature SignatureSection.placeholder uncompressed size md5).table.map
        (fun e => e.1) = [1000, 1004, 1007] ∧
    SignatureSection.placeholder.table.map (fun e => e.1) = [1000, 1004, 1007] ∧
    (∀ tag v1 v2, mget tag SignatureSection.placeholder.table = some v1 →
      mget tag (finalizeSignature SignatureSection.placeholder uncompressed size md5).table
        = some v2 →
      v2.index_type = v1.index_type ∧ v2.encode.length = v1.encode.length) ∧
    (sigWrite (finalizeSignature SignatureSection.placeholder uncompressed size md5)).length
      = (sigWrite SignatureSection.placeholder).length := by
  have hp : SignatureSection.placeholder.table
      = [(1000, .Int32 [0]), (1004, .Binary (List.replicate 16 0)), (1007, .Int32 [0])] := by
    decide
  have hf : (finalizeSignature SignatureSection.placeholder uncompressed size md5).table
      = [(1000, .Int32 [size % 2 ^ 32]), (1004, .Binary md5),
         (1007, .Int32 [uncompressed % 2 ^ 32])] := by
    simp [finalizeSignature, SignatureSection.placeholder,
      SignatureSection.set_uncompressed_archive_size,
      SignatureSection.set_header_and_archive_size,
      SignatureSection.set_header_and_archive_md5, minsert]
  refine ⟨by rw [hf]; simp, by rw [hp]; simp, ?_, ?_⟩
  · intro tag v1 v2 h1 h2
    rw [hp] at h1
    rw [hf] at h2
    by_cases e1 : (1000 : Int) = tag
    · subst e1
      simp [mget] at h1 h2
      subst h1; subst h2
      simp [IndexValue.encode, IndexValue.index_type, beBytes_length]
    · by_cases e2 : (1004 : Int) = tag
      · subst e2
        simp [mget, e1] at h1 h2
        subst h1; subst h2
        simp [IndexValue.encode, IndexValue.index_type, h]
      · by_cases e3 : (1007 : Int) = tag
        · subst e3
          simp [mget, e1, e2] at h1 h2
          subst h1; subst h2
          simp [IndexValue.encode, IndexValue.index_type, beBytes_length]
        · simp [mget, e1, e2, e3] at h1
  · rw [sigWrite, hf]
    have hr : (sigWrite SignatureSection.placeholder).length = 88 := by decide
    rw [hr]
    simp [tableWrite, buildData, pad8, padLen, entryBytes, IndexValue.encode,
      IndexValue.index_type, IndexType.alignment, beBytes_length, List.length_append, h]

/-! ### `internal/header.rs`: the Header section -/

/-- The marker dependency string selecting the compressed file-name scheme. -/
def compressedFileNamesMarker : Bytes := str "rpmlib(CompressedFileNames)"

/-- The known index entries for the Header section (`ENTRIES`). -/
def headerEntries : List SchemaEntry :=
  [(true,  "NAME",         1000, .String,     none),
   (true,  "VERSION",      1001, .String,     none),
   (true,  "RELEASE",      1002, .String,     none),
   (true,  "SUMMARY",      1004, .I18nString, none),
   (true,  "DESCRIPTION",  1005, .I18nString, none),
   (true,  "SIZE",         1009, .Int32,      some 1),
   (false, "VENDOR",       1011, .String,     none),
   (true,  "LICENSE",      1014, .String,     none),
   (true,  "GROUP",        1016, .I18nString, none),
   (false, "URL",          1020, .String,     none),
   (true,  "OS",           1021, .String,     none),
   (true,  "ARCH",         1022, .String,     none),
   (false, "ARCHIVESIZE",  1046, .Int32,      some 1),
   (true,  "PAYLOADFORMAT", 1124, .String,    none),
   (true,  "PAYLOADCOMPRESSOR", 1125, .String, none),
   (true,  "PAYLOADFLAGS", 1126, .String,     none),
   (false, "PREIN",      1023, .String, none),
   (false, "POSTIN",     1024, .String, none),
   (false, "PREUN",      1025, .String, none),
   (false, "POSTUN",     1026, .String, none),
   (false, "PREINPROG",  1085, .String, none),
   (false, "POSTINPROG", 1086, .String, none),
   (false, "PREUNPROG",  1087, .String, none),
   (false, "POSTUNPROG", 1088, .String, none),
   (false, "OLDFILENAMES",  1027, .StringArray, none),
   (true,  "FILESIZES",     1028, .Int32,       none),
   (true,  "FILEMODES",     1030, .Int16,       none),
   (true,  "FILERDEVS",     1033, .Int16,       none),
   (true,  "FILEMTIMES",    1034, .Int32,       none),
   (true,  "FILEMD5S",      1035, .StringArray, none),
   (true,  "FILELINKTOS",   1036, .StringArray, none),
   (true,  "FILEFLAGS",     1037, .Int32,       none),
   (true,  "FILEUSERNAME",  1039, .StringArray, none),
   (true,  "FILEGROUPNAME", 1040, .StringArray, none),
   (true,  "FILEDEVICES",   1095, .Int32,       none),
   (true,  "FILEINODES",    1096, .Int32,       none),
   (true,  "FILELANGS",     1097, .StringArray, none),
   (false, "DIRINDEXES",    1116, .Int32,       none),
   (false, "BASENAMES",     1117, .StringArray, none),
   (false, "DIRNAMES",      1118, .StringArray, none),
   (true,  "PROVIDENAME",   1047, .StringArray, none),
   (true,  "PROVIDEFLAGS",  1112, .Int32,       none),
   (true,  "PROVIDEVERSION", 1113, .StringArray, none),
   (true,  "REQUIRENAME",   1049, .StringArray, none),
   (true,  "REQUIREFLAGS",  1048, .Int32,       none),
   (true,  "REQUIREVERSION", 1050, .StringArray, none),
   (false, "CONFLICTNAME",  1054, .StringArray, none),
   (false, "CONFLICTFLAGS", 1053, .Int32,       none),
   (false, "CONFLICTVERSION", 1055, .StringArray, none),
   (false, "OBSOLETENAME",  1090, .StringArray, none),
   (false, "OBSOLETEFLAGS", 1114, .Int32,       none),
   (false, "OBSOLETEVERSION", 1115, .StringArray, none),
   (false, "BUILDTIME",     1006, .Int32,    some 1),
   (false, "BUILDHOST",     1007, .String,      none),
   (false, "FILEVERIFYFLAGS", 1045, .Int32,     none),
   (false, "CHANGELOGTIME", 1080, .Int32,       none),
   (false, "CHANGELOGNAME", 1081, .StringArray, none),
   (false, "CHANGELOGTEXT", 1082, .StringArray, none),
   (false, "OPTFLAGS",      1122, .String,      none)]

/-- The install-script twin pairs (`INSTALLATION_ENTRIES`). -/
def installationEntries : List (String × Int × String × Int) :=
  [("PREIN",  1023, "PREINPROG",  1085),
   ("POSTIN", 1024, "POSTINPROG", 1086),
   ("PREUN",  1025, "PREUNPROG",  1087),
   ("POSTUN", 1026, "POSTUNPROG", 1088)]

/-- The parallel file-table arrays (`FILE_ENTRIES`). -/
def fileEntries : List (String × Int) :=
  [("FILESIZES",     1028),
   ("FILEMODES",     1030),
   ("FILERDEVS",     1033),
   ("FILEMTIMES",    1034),
   ("FILEMD5S",      1035),
   ("FILELINKTOS",   1036),
   ("FILEFLAGS",     1037),
   ("FILEUSERNAME",  1039),
   ("FILEGROUPNAME", 1040),
   ("FILEDEVICES",   1095),
   ("FILEINODES",    1096),
   ("FILELANGS",     1097)]

/-- The "Header" section of an RPM package file. -/
structure HeaderSection where
  table : Table
  use_old_filenames : Bool
deriving DecidableEq

/-- `HeaderSection::new`: explicit defaults, then `default_value` for each
required tag not yet present. -/
def headerNew : HeaderSection :=
  let t0 := minsert 1027 (.StringArray [])
    (minsert 1126 (.String (str "9"))
      (minsert 1125 (.String (str "gzip"))
        (minsert 1124 (.String (str "cpio"))
          (minsert 1021 (.String (str "linux"))
            (minsert 1009 (.Int32 [0]) [])))))
  let t := headerEntries.foldl (fun t e =>
    if e.1 && !(mcontains e.2.2.1 t) then minsert e.2.2.1 e.2.2.2.1.default_value t
    else t) t0
  ⟨t, true⟩

/-- The install-script twin-presence check. -/
def checkInstallation (t : Table) : List (String × Int × String × Int) → Except String Unit
  | [] => .ok ()
  | (name1, tag1, name2, tag2) :: rest =>
    if mcontains tag1 t && !(mcontains tag2 t) then
      .error ("Missing " ++ name2 ++ " entry (tag " ++ intToStr tag2 ++
        ") in Header section (since using " ++ name1 ++ ")")
    else checkInstallation t rest

/-- The `REQUIRE*` parallel-array length checks. -/
def checkRequireCounts (t : Table) : Except String Unit :=
  match mget 1049 t, mget 1048 t, mget 1050 t with
  | some vn, some vf, some vv =>
    if vf.count ≠ vn.count then
      .error ("Counts for REQUIRENAME and REQUIREFLAGS entries do not match (" ++
        numToStr vn.count ++ " vs. " ++ numToStr vf.count ++ ")")
    else if vv.count ≠ vn.count then
      .error ("Counts for REQUIRENAME and REQUIREVERSION entries do not match (" ++
        numToStr vn.count ++ " vs. " ++ numToStr vv.count ++ ")")
    else .ok ()
  | _, _, _ => .error "panic: unwrap of missing entry"

/-- Fold `expect_count` over a list of parallel arrays. -/
def expectCountAll (t : Table) (name1 : String) (tag1 : Int) (count1 : Nat) :
    List (String × Int) → Except String Unit
  | [] => .ok ()
  | (name, tag) :: rest =>
    match expect_count t "Header" name1 tag1 count1 name tag with
    | .error e => .error e
    | .ok _ => expectCountAll t name1 tag1 count1 rest

/-- The legacy (OLDFILENAMES) file-naming checks. -/
def checkOldFilenames (t : Table) : Except String Unit :=
  match mget 1027 t with
  | some v => expectCountAll t "OLDFILENAMES" 1027 v.count fileEntries
  | none =>
    .error ("Missing OLDFILENAMES entry (tag " ++ intToStr 1027 ++
      ") in Header section (since not using rpmlib(CompressedFileNames))")

/-- The per-element DIRINDEXES bounds check. -/
def checkDirIndexes (dir_count : Nat) : List Nat → Except String Unit
  | [] => .ok ()
  | v :: rest =>
    if dir_count ≤ v then
      .error ("Invalid value (" ++ numToStr v ++ ") in DIRINDEXES entry (tag " ++
        intToStr 1116 ++ ") in Header section (DIRNAMES entry (tag " ++
        intToStr 1118 ++ ") count is " ++ numToStr dir_count ++ ")")
    else checkDirIndexes dir_count rest

/-- The compressed (DIRNAMES/BASENAMES/DIRINDEXES) file-naming checks. -/
def checkCompressed (t : Table) : Except String Unit :=
  match mget 1118 t with
  | none =>
    .error ("Missing DIRNAMES entry (tag " ++ intToStr 1118 ++
      ") in Header section (since using rpmlib(CompressedFileNames))")
  | some vdir =>
    match mget 1117 t with
    | none =>
      .error ("Missing BASENAMES entry (tag " ++ intToStr 1117 ++
        ") in Header section (since using rpmlib(CompressedFileNames))")
    | some vbase =>
      match mget 1116 t with
      | some (.Int32 values) =>
        (match checkDirIndexes vdir.count values with
        | .error e => .error e
        | .ok _ =>
          match expect_count t "Header" "BASENAMES" 1117 vbase.count "DIRINDEXES" 1116 with
          | .error e => .error e
          | .ok _ => expectCountAll t "BASENAMES" 1117 vbase.count fileEntries)
      | _ =>
        .error ("Missing DIRINDEXES entry (tag " ++ intToStr 1116 ++
          ") in Header section (since using rpmlib(CompressedFileNames))")

/-- The validation phase of `HeaderSection::read`. -/
def headerValidate (t : Table) : Except String HeaderSection :=
  match validateSchema t "Header" headerEntries with
  | .error e => .error e
  | .ok _ =>
  match expect_string_value t "Header" "OS" 1021 (str "linux") with
  | .error e => .error e
  | .ok _ =>
  match expect_string_value t "Header" "PAYLOADFORMAT" 1124 (str "cpio") with
  | .error e => .error e
  | .ok _ =>
  match checkInstallation t installationEntries with
  | .error e => .error e
  | .ok _ =>
  match checkRequireCounts t with
  | .error e => .error e
  | .ok _ =>
  match get_string_array t 1049 with
  | none => .error "panic: unwrap of missing string array"
  | some rn =>
    let use_old := !(rn.contains compressedFileNamesMarker)
    match (if use_old then checkOldFilenames t else checkCompressed t) with
    | .error e => .error e
    | .ok _ => .ok ⟨t, use_old⟩

/-- `HeaderSection::read`. -/
def headerRead (bs : Bytes) : Except String (HeaderSection × Bytes) :=
  match tableRead false bs with
  | .error e => .error e
  | .ok (t, rest) =>
    match headerValidate t with
    | .error e => .error e
    | .ok h => .ok (h, rest)

/-- `HeaderSection::write`. -/
def headerWrite (h : HeaderSection) : Bytes := tableWrite false h.table

/-- Metadata about a file in the package (`FileInfo`); the numeric fields
hold the unsigned interpretations of the stored `u32`/`u16` values. -/
structure FileInfo where
  name : Bytes
  size : Nat
  mode : Nat
  rdev : Nat
  mtime : Nat
  md5 : Bytes
  linkto : Bytes
  flags : Nat
  user : Bytes
  group : Bytes
  device : Nat
  inode : Nat
  lang : Bytes
deriving DecidableEq

/-- `FileInfo::new`: the install path and size, all other fields default. -/
def FileInfo.new (install_path : Bytes) (file_size : Nat) : FileInfo :=
  { name := install_path, size := file_size, mode := 0o644, rdev := 0, mtime := 0,
    md5 := [], linkto := [], flags := 0, user := str "root", group := str "root",
    device := 0, inode := 0, lang := [] }

/-- One step of `FileInfoIter::next`: `none` models an `unwrap` panic. -/
def fileAt (t : Table) (use_old : Bool) (idx : Nat) : Option FileInfo :=
  match (if use_old then get_nth_string t 1027 idx
    else
      match get_nth_int32 t 1116 idx with
      | none => none
      | some dir_index =>
        match get_nth_string t 1117 idx with
        | none => none
        | some base =>
          match get_nth_string t 1118 dir_index with
          | none => none
          | some dir => some (dir ++ base)) with
  | none => none
  | some name =>
  match get_nth_string t 1035 idx with
  | none => none
  | some md5 =>
  match get_nth_string t 1036 idx with
  | none => none
  | some linkto =>
  match get_nth_string t 1039 idx with
  | none => none
  | some user =>
  match get_nth_string t 1040 idx with
  | none => none
  | some group =>
  match get_nth_string t 1097 idx with
  | none => none
  | some lang =>
  match get_nth_int32 t 1028 idx with
  | none => none
  | some size =>
  match get_nth_int16 t 1030 idx with
  | none => none
  | some mode =>
  match get_nth_int16 t 1033 idx with
  | none => none
  | some rdev =>
  match get_nth_int32 t 1034 idx with
  | none => none
  | some mtime =>
  match get_nth_int32 t 1037 idx with
  | none => none
  | some flags =>
  match get_nth_int32 t 1095 idx with
  | none => none
  | some device =>
  match get_nth_int32 t 1096 idx with
  | none => none
  | some inode =>
    some { name := name, size := size, mode := mode, rdev := rdev, mtime := mtime,
           md5 := md5, linkto := linkto, flags := flags, user := user, group := group,
           device := device, inode := inode, lang := lang }

/-- `HeaderSection::files`, fully materialized (the iterator length is the
FILESIZES count; `none` models a panic). -/
def filesOf (h : HeaderSection) : Option (List FileInfo) :=
  match mget 1028 h.table with
  | none => none
  | some v => (List.range v.count).mapM (fun i => fileAt h.table h.use_old_filenames i)

/-- An entry in the package changelog. -/
structure ChangeLogEntry where
  timestamp : SystemTime
  author : Bytes
  description : Bytes
deriving DecidableEq

/-- `HeaderSection::changelog`, fully materialized: the iterator length is
`table.get(TAG_CHANGELOGTIME).unwrap().count()`, so a missing
CHANGELOGTIME entry panics (`none`). -/
def changelogOf (h : HeaderSection) : Option (List ChangeLogEntry) :=
  match mget 1080 h.table with
  | none => none
  | some v => (List.range v.count).mapM (fun i =>
      match get_nth_int32 h.table 1080 i with
      | none => none
      | some time =>
        match get_nth_string h.table 1081 i with
        | none => none
        | some author =>
          match get_nth_string h.table 1082 i with
          | none => none
          | some desc =>
            some ⟨u32_to_system_time time, author, desc⟩)

/-- Claim C9: `changelog()` on a header whose table lacks the optional
CHANGELOGTIME tag (1080) panics — in particular on any header produced by
`HeaderSection::new` — rather than yielding an empty iterator. -/
theorem claim_c9_changelog_panics_without_tag :
    mget 1080 headerNew.table = none ∧
    changelogOf headerNew = none ∧
    (∀ h : HeaderSection, mget 1080 h.table = none → changelogOf h = none) := by
  refine ⟨by decide, by decide, ?_⟩
  intro h hm
  unfold changelogOf
  rw [hm]

/-- Witness for C9: the general clause applied to `HeaderSection::new`. -/
theorem claim_c9_witness : changelogOf headerNew = none :=
  claim_c9_changelog_panics_without_tag.2.2 headerNew (by decide)

/-- A header table that passes the schema validation and all checks up to
file naming, whose REQUIRENAME contains the compressed-file-names marker,
but which has no DIRNAMES entry (tag 1118). -/
def headerTableNoDirnames : Table :=
  [(1000, .String (str "a")), (1001, .String (str "1")), (1002, .String (str "1")),
   (1004, .I18nString []), (1005, .I18nString []), (1009, .Int32 [0]),
   (1014, .String (str "MIT")), (1016, .I18nString []), (1021, .String (str "linux")),
   (1022, .String []), (1028, .Int32 []), (1030, .Int16 []), (1033, .Int16 []),
   (1034, .Int32 []), (1035, .StringArray []), (1036, .StringArray []),
   (1037, .Int32 []), (1039, .StringArray []), (1040, .StringArray []),
   (1047, .StringArray []), (1048, .Int32 [0]),
   (1049, .StringArray [str "rpmlib(CompressedFileNames)"]),
   (1050, .StringArray [str ""]), (1095, .Int32 []), (1096, .Int32 []),
   (1097, .StringArray []), (1112, .Int32 []), (1113, .StringArray []),
   (1124, .String (str "cpio")), (1125, .String (str "gzip")),
   (1126, .String (str "9"))]

/-- Claim C4 counterexample: a table satisfying the claim's premises on
which `HeaderSection::read` fails with a message that carries the
"(since using rpmlib(CompressedFileNames))" suffix — not the exact message
stated by the claim. -/
theorem claim_c4_counterexample :
    validateSchema headerTableNoDirnames "Header" headerEntries = .ok () ∧
    get_string_array headerTableNoDirnames 1049
      = some [str "rpmlib(CompressedFileNames)"] ∧
    mget 1118 headerTableNoDirnames = none ∧
    headerRead (tableWrite false headerTableNoDirnames)
      = .error "Missing DIRNAMES entry (tag 1118) in Header section (since using rpmlib(CompressedFileNames))" ∧
    "Missing DIRNAMES entry (tag 1118) in Header section (since using rpmlib(CompressedFileNames))"
      ≠ "Missing DIRNAMES entry (tag 1118) in Header section" := by
  have hrt : tableRead false (tableWrite false headerTableNoDirnames)
      = .ok (headerTableNoDirnames, []) := by
    have h := tableRead_tableWrite false headerTableNoDirnames [] (by decide) (by decide)
    simpa using h
  refine ⟨by decide, by decide, by decide, ?_, by decide⟩
  unfold headerRead
  have hv : headerValidate headerTableNoDirnames
      = .error "Missing DIRNAMES entry (tag 1118) in Header section (since using rpmlib(CompressedFileNames))" := by
    decide
  simp only [hrt, hv]

/-- Claim C4 (amended): for any header-table bytes whose table passes the
schema validation and the intermediate (OS / PAYLOADFORMAT / install-script
/ REQUIRE-count) checks, contains the compressed-file-names marker in
REQUIRENAME, and lacks tag 1118, `HeaderSection::read` fails with the
message "Missing DIRNAMES entry (tag 1118) in Header section (since using
rpmlib(CompressedFileNames))" — i.e. the claimed message plus the
"(since using …)" suffix. -/
theorem claim_c4_missing_dirnames (bs rest : Bytes) (t : Table)
    (h1 : tableRead false bs = .ok (t, rest))
    (h2 : validateSchema t "Header" headerEntries = .ok ())
    (h3 : expect_string_value t "Header" "OS" 1021 (str "linux") = .ok ())
    (h4 : expect_string_value t "Header" "PAYLOADFORMAT" 1124 (str "cpio") = .ok ())
    (h5 : checkInstallation t installationEntries = .ok ())
    (h6 : checkRequireCounts t = .ok ())
    (h7 : ∃ l, get_string_array t 1049 = some l ∧ compressedFileNamesMarker ∈ l)
    (h8 : mget 1118 t = none) :
    headerRead bs
      = .error "Missing DIRNAMES entry (tag 1118) in Header section (since using rpmlib(CompressedFileNames))" := by
  obtain ⟨l, hl, hmem⟩ := h7
  have hcont : l.contains compressedFileNamesMarker = true := by
    simpa using hmem
  unfold headerRead
  rw [h1]
  unfold headerValidate
  simp only [h2, h3, h4, h5, h6, hl, hcont, Bool.not_true, Bool.false_eq_true, if_false,
    reduceIte]
  unfold checkCompressed
  simp only [h8]
  have : intToStr 1118 = "1118" := by decide
  rw [this]
  rfl

/-- Witness for C4 (amended): the concrete DIRNAMES-less table. -/
theorem claim_c4_witness :
    headerRead (tableWrite false headerTableNoDirnames)
      = .error "Missing DIRNAMES entry (tag 1118) in Header section (since using rpmlib(CompressedFileNames))" :=
  claim_c4_missing_dirnames (tableWrite false headerTableNoDirnames) [] headerTableNoDirnames
    (by simpa using tableRead_tableWrite false headerTableNoDirnames [] (by decide) (by decide))
    (by decide) (by decide) (by decide) (by decide) (by decide)
    ⟨[str "rpmlib(CompressedFileNames)"], by decide, by decide⟩ (by decide)


/-- Witness for C3: a concrete finalized signature has the same serialized
length as the placeholder. -/
theorem claim_c3_witness :
    (sigWrite (finalizeSignature SignatureSection.placeholder 5 6
        (List.replicate 16 1))).length
      = (sigWrite SignatureSection.placeholder).length :=
  (claim_c3_placeholder_same_length 5 6 (List.replicate 16 1) (by decide)).2.2.2

/-- Witness for C7: concrete instances of each clamping clause. -/
theorem claim_c7_witness :
    system_time_to_u32 (u32_to_system_time 54321) = 54321 ∧
    system_time_to_u32 (-5) = 0 ∧
    system_time_to_u32 ((2 ^ 32) * 1000000000) = 0xffffffff :=
  ⟨claim_c7_timestamp_conversion.1 54321 (by decide),
   claim_c7_timestamp_conversion.2.1 (-5) (by decide),
   claim_c7_timestamp_conversion.2.2 _ (le_refl _)⟩

/-! ### Inversion lemmas for the header checks (used for C5) -/

theorem validateEntry_required_inv {t : Table} {sect name : String} {tag : Int}
    {ty : IndexType} {cnt : Option Nat}
    (h : validateEntry t sect true name tag ty cnt = .ok ()) :
    ∃ v, mget tag t = some v ∧ v.index_type = ty ∧ (∀ c, cnt = some c → v.count = c) := by
  unfold validateEntry at h
  rcases hm : mget tag t with _ | v
  · rw [hm] at h; simp at h
  · rw [hm] at h
    by_cases hty : v.index_type = ty
    · refine ⟨v, rfl, hty, ?_⟩
      intro c hcnt
      subst hcnt
      by_cases hcv : v.count = c
      · exact hcv
      · simp [hty, hcv] at h
    · simp [hty] at h

theorem checkDirIndexes_ok {dc : Nat} {l : List Nat}
    (h : checkDirIndexes dc l = .ok ()) : ∀ v ∈ l, v < dc := by
  induction l with
  | nil => intro v hv; cases hv
  | cons x xs ih =>
      intro v hv
      unfold checkDirIndexes at h
      by_cases hx : dc ≤ x
      · simp [hx] at h
      · rw [if_neg hx] at h
        rcases List.mem_cons.mp hv with hv2 | hv2
        · subst hv2; omega
        · exact ih h v hv2

theorem expect_count_ok {t : Table} {sect name1 name2 : String} {tag1 tag2 : Int}
    {count1 : Nat}
    (h : expect_count t sect name1 tag1 count1 name2 tag2 = .ok ()) :
    count1 = ((mget tag2 t).map IndexValue.count).getD 0 := by
  unfold expect_count at h
  by_cases hc : count1 = ((mget tag2 t).map IndexValue.count).getD 0
  · exact hc
  · simp [hc] at h

theorem expectCountAll_ok {t : Table} {name1 : String} {tag1 : Int} {count1 : Nat}
    {l : List (String × Int)} (h : expectCountAll t name1 tag1 count1 l = .ok ()) :
    ∀ p ∈ l, count1 = ((mget p.2 t).map IndexValue.count).getD 0 := by
  induction l with
  | nil => intro p hp; cases hp
  | cons a rest ih =>
      intro p hp
      unfold expectCountAll at h
      obtain ⟨aname, atag⟩ := a
      rcases he : expect_count t "Header" name1 tag1 count1 aname atag with e | u
      · rw [he] at h; cases h
      · rw [he] at h
        rcases List.mem_cons.mp hp with hp2 | hp2
        · subst hp2; exact expect_count_ok he
        · exact ih h p hp2

theorem checkCompressed_ok_inv {t : Table} (hc : checkCompressed t = .ok ()) :
    ∃ vdir vbase values,
      mget 1118 t = some vdir ∧ mget 1117 t = some vbase ∧
      mget 1116 t = some (.Int32 values) ∧
      (∀ v ∈ values, v < vdir.count) ∧
      vbase.count = values.length ∧
      (∀ p ∈ fileEntries, vbase.count = ((mget p.2 t).map IndexValue.count).getD 0) := by
  unfold checkCompressed at hc
  rcases hdir : mget 1118 t with _ | vdir
  · simp [hdir] at hc
  · rcases hbase : mget 1117 t with _ | vbase
    · simp [hdir, hbase] at hc
    · rcases hidx : mget 1116 t with _ | vidx
      · simp [hdir, hbase, hidx] at hc
      · cases vidx with
        | Int32 values =>
            simp only [hdir, hbase, hidx] at hc
            rcases hd : checkDirIndexes vdir.count values with e | u
            · simp only [hd] at hc; cases hc
            · rcases u
              simp only [hd] at hc
              rcases hcc : expect_count t "Header" "BASENAMES" 1117 vbase.count
                  "DIRINDEXES" 1116 with e | u
              · simp only [hcc] at hc; cases hc
              · rcases u
                simp only [hcc] at hc
                refine ⟨vdir, vbase, values, rfl, rfl, rfl, checkDirIndexes_ok hd, ?_, ?_⟩
                · have := expect_count_ok hcc
                  rw [this, hidx]
                  simp [IndexValue.count]
                · exact expectCountAll_ok hc
        | Null => simp [hdir, hbase, hidx] at hc
        | Char a => simp [hdir, hbase, hidx] at hc
        | Int8 a => simp [hdir, hbase, hidx] at hc
        | Int16 a => simp [hdir, hbase, hidx] at hc
        | Int64 a => simp [hdir, hbase, hidx] at hc
        | String s => simp [hdir, hbase, hidx] at hc
        | Binary a => simp [hdir, hbase, hidx] at hc
        | StringArray l => simp [hdir, hbase, hidx] at hc
        | I18nString l => simp [hdir, hbase, hidx] at hc

theorem headerValidate_ok_inv {t : Table} {h : HeaderSection}
    (hv : headerValidate t = .ok h) :
    validateSchema t "Header" headerEntries = .ok () ∧
    ∃ rn, get_string_array t 1049 = some rn ∧
      h.table = t ∧
      h.use_old_filenames = !(rn.contains compressedFileNamesMarker) ∧
      (h.use_old_filenames = true → checkOldFilenames t = .ok ()) ∧
      (h.use_old_filenames = false → checkCompressed t = .ok ()) := by
  unfold headerValidate at hv
  rcases h1 : validateSchema t "Header" headerEntries with e | u
  · simp [h1] at hv
  · rcases u
    rw [h1] at hv
    rcases h2 : expect_string_value t "Header" "OS" 1021 (str "linux") with e | u
    · simp [h2] at hv
    · rcases u
      rw [h2] at hv
      rcases h3 : expect_string_value t "Header" "PAYLOADFORMAT" 1124 (str "cpio") with e | u
      · simp [h3] at hv
      · rcases u
        rw [h3] at hv
        rcases h4 : checkInstallation t installationEntries with e | u
        · simp [h4] at hv
        · rcases u
          rw [h4] at hv
          rcases h5 : checkRequireCounts t with e | u
          · simp [h5] at hv
          · rcases u
            rw [h5] at hv
            rcases h6 : get_string_array t 1049 with _ | rn
            · simp [h6] at hv
            · rw [h6] at hv
              refine ⟨rfl, rn, rfl, ?_⟩
              rcases hb : rn.contains compressedFileNamesMarker with _ | _
              · simp only [hb, Bool.not_false, if_true, reduceIte] at hv
                rcases h7 : checkOldFilenames t with e | u
                · simp [h7] at hv
                · rcases u
                  rw [h7] at hv
                  simp only [Except.ok.injEq] at hv
                  subst hv
                  simp [hb]
              · simp only [hb, Bool.not_true, Bool.false_eq_true, if_false, reduceIte] at hv
                rcases h7 : checkCompressed t with e | u
                · simp [h7] at hv
                · rcases u
                  rw [h7] at hv
                  simp only [Except.ok.injEq] at hv
                  subst hv
                  simp [hb]

/-! ### Helpers for evaluating `files()` -/

theorem get_nth_string_sa {t : Table} {tag : Int} {l : List Bytes} {i : Nat}
    (hm : mget tag t = some (.StringArray l)) (hi : i < l.length) :
    get_nth_string t tag i = some l[i] := by
  unfold get_nth_string
  rw [hm]
  exact List.getElem?_eq_getElem hi

theorem get_nth_int32_arr {t : Table} {tag : Int} {l : List Nat} {i : Nat}
    (hm : mget tag t = some (.Int32 l)) (hi : i < l.length) :
    get_nth_int32 t tag i = some l[i] := by
  unfold get_nth_int32
  rw [hm]
  exact List.getElem?_eq_getElem hi

theorem get_nth_int16_arr {t : Table} {tag : Int} {l : List Nat} {i : Nat}
    (hm : mget tag t = some (.Int16 l)) (hi : i < l.length) :
    get_nth_int16 t tag i = some l[i] := by
  unfold get_nth_int16
  rw [hm]
  exact List.getElem?_eq_getElem hi

theorem mapM_range_spec {β : Type} (f : Nat → Option β) (n : Nat)
    (h : ∀ i, i < n → (f i).isSome = true) :
    ∃ ys : List β, (List.range n).mapM f = some ys ∧ ys.length = n ∧
      ∀ i, i < n → f i = ys[i]? := by
  induction n with
  | zero => exact ⟨[], rfl, rfl, fun i hi => absurd hi (by omega)⟩
  | succ n ih =>
      obtain ⟨ys, hys, hlen, hget⟩ := ih (fun i hi => h i (by omega))
      obtain ⟨b, hb⟩ := Option.isSome_iff_exists.mp (h n (by omega))
      refine ⟨ys ++ [b], ?_, by simp [hlen], ?_⟩
      · rw [List.range_succ, List.mapM_append, hys]
        have h1 : List.mapM f [n] = some [b] := by
          simp only [List.mapM_cons, List.mapM_nil, hb]
          rfl
        rw [h1]
        rfl
      · intro i hi
        rcases Nat.lt_or_ge i n with hlt | hge
        · have happ : (ys ++ [b])[i]? = ys[i]? := by
            rw [List.getElem?_append]
            simp only [hlen, hlt, if_true, reduceIte]
          rw [hget i hlt, happ]
        · have hieq : i = n := by omega
          subst hieq
          rw [hb, ← hlen, List.getElem?_concat_length]


/-- For a schema-validated Header table, each required tag is present with
its schema type (specialized to Int32 arrays). -/
theorem required_int32_array {t : Table}
    (hs : validateSchema t "Header" headerEntries = .ok ())
    (name : String) (tag : Int)
    (hmem : ((true, name, tag, IndexType.Int32, (none : Option Nat)) : SchemaEntry)
      ∈ headerEntries) :
    ∃ l, mget tag t = some (.Int32 l) := by
  obtain ⟨v, hm, hty, _⟩ := validateEntry_required_inv (validateSchema_ok hs _ hmem)
  cases v <;> simp [IndexValue.index_type] at hty
  exact ⟨_, hm⟩

/-- As above, for Int16 arrays. -/
theorem required_int16_array {t : Table}
    (hs : validateSchema t "Header" headerEntries = .ok ())
    (name : String) (tag : Int)
    (hmem : ((true, name, tag, IndexType.Int16, (none : Option Nat)) : SchemaEntry)
      ∈ headerEntries) :
    ∃ l, mget tag t = some (.Int16 l) := by
  obtain ⟨v, hm, hty, _⟩ := validateEntry_required_inv (validateSchema_ok hs _ hmem)
  cases v <;> simp [IndexValue.index_type] at hty
  exact ⟨_, hm⟩

/-- As above, for string arrays. -/
theorem required_string_array {t : Table}
    (hs : validateSchema t "Header" headerEntries = .ok ())
    (name : String) (tag : Int)
    (hmem : ((true, name, tag, IndexType.StringArray, (none : Option Nat)) : SchemaEntry)
      ∈ headerEntries) :
    ∃ l, mget tag t = some (.StringArray l) := by
  obtain ⟨v, hm, hty, _⟩ := validateEntry_required_inv (validateSchema_ok hs _ hmem)
  cases v <;> simp [IndexValue.index_type] at hty
  exact ⟨_, hm⟩

/-- In-bounds `List.getD` agrees with `getElem`. -/
theorem getD_eq {α : Type} (l : List α) (d : α) {i : Nat} (h : i < l.length) :
    l.getD i d = l[i] := by
  rw [List.getD_eq_getElem?_getD, List.getElem?_eq_getElem h]
  rfl

theorem getD_some {α : Type} {l : List α} {i : Nat} (d : α) (h : i < l.length) :
    l[i]? = some (l.getD i d) := by
  rw [List.getElem?_eq_getElem h, getD_eq l d h]

theorem get_nth_string_saD {t : Table} {tag : Int} {l : List Bytes} {i : Nat}
    (hm : mget tag t = some (.StringArray l)) (hi : i < l.length) :
    get_nth_string t tag i = some (l.getD i []) := by
  rw [get_nth_string_sa hm hi, getD_eq l [] hi]

theorem get_nth_int32_arrD {t : Table} {tag : Int} {l : List Nat} {i : Nat}
    (hm : mget tag t = some (.Int32 l)) (hi : i < l.length) :
    get_nth_int32 t tag i = some (l.getD i 0) := by
  rw [get_nth_int32_arr hm hi, getD_eq l 0 hi]

theorem get_nth_int16_arrD {t : Table} {tag : Int} {l : List Nat} {i : Nat}
    (hm : mget tag t = some (.Int16 l)) (hi : i < l.length) :
    get_nth_int16 t tag i = some (l.getD i 0) := by
  rw [get_nth_int16_arr hm hi, getD_eq l 0 hi]

/-- Evaluation of `fileAt` when all twelve file arrays are present and the
index is in bounds (compressed scheme). -/
theorem fileAt_eval (t : Table) (i : Nat)
    (dirnames basenames md5s linktos users groups langs : List Bytes)
    (values sizes modes rdevs mtimes flagss devices inodes : List Nat)
    (hm1116 : mget 1116 t = some (.Int32 values))
    (hm1117 : mget 1117 t = some (.StringArray basenames))
    (hm1118 : mget 1118 t = some (.StringArray dirnames))
    (hm1028 : mget 1028 t = some (.Int32 sizes))
    (hm1030 : mget 1030 t = some (.Int16 modes))
    (hm1033 : mget 1033 t = some (.Int16 rdevs))
    (hm1034 : mget 1034 t = some (.Int32 mtimes))
    (hm1035 : mget 1035 t = some (.StringArray md5s))
    (hm1036 : mget 1036 t = some (.StringArray linktos))
    (hm1037 : mget 1037 t = some (.Int32 flagss))
    (hm1039 : mget 1039 t = some (.StringArray users))
    (hm1040 : mget 1040 t = some (.StringArray groups))
    (hm1095 : mget 1095 t = some (.Int32 devices))
    (hm1096 : mget 1096 t = some (.Int32 inodes))
    (hm1097 : mget 1097 t = some (.StringArray langs))
    (hiv : i < values.length) (hib : i < basenames.length)
    (hdb : values.getD i 0 < dirnames.length)
    (h1 : i < sizes.length) (h2 : i < modes.length) (h3 : i < rdevs.length)
    (h4 : i < mtimes.length) (h5 : i < md5s.length) (h6 : i < linktos.length)
    (h7 : i < flagss.length) (h8 : i < users.length) (h9 : i < groups.length)
    (h10 : i < devices.length) (h11 : i < inodes.length) (h12 : i < langs.length) :
    fileAt t false i = some
      { name := dirnames.getD (values.getD i 0) [] ++ basenames.getD i [],
        size := sizes.getD i 0, mode := modes.getD i 0, rdev := rdevs.getD i 0,
        mtime := mtimes.getD i 0, md5 := md5s.getD i [], linkto := linktos.getD i [],
        flags := flagss.getD i 0, user := users.getD i [], group := groups.getD i [],
        device := devices.getD i 0, inode := inodes.getD i 0,
        lang := langs.getD i [] } := by
  unfold fileAt
  simp only [Bool.false_eq_true, if_false]
  simp only [get_nth_int32_arrD hm1116 hiv]
  simp only [get_nth_string_saD hm1117 hib]
  simp only [get_nth_string_saD hm1118 hdb]
  simp only [get_nth_string_saD hm1035 h5]
  simp only [get_nth_string_saD hm1036 h6]
  simp only [get_nth_string_saD hm1039 h8]
  simp only [get_nth_string_saD hm1040 h9]
  simp only [get_nth_string_saD hm1097 h12]
  simp only [get_nth_int32_arrD hm1028 h1]
  simp only [get_nth_int16_arrD hm1030 h2]
  simp only [get_nth_int16_arrD hm1033 h3]
  simp only [get_nth_int32_arrD hm1034 h4]
  simp only [get_nth_int32_arrD hm1037 h7]
  simp only [get_nth_int32_arrD hm1095 h10]
  simp only [get_nth_int32_arrD hm1096 h11]

/-- Membership of a known position in a literal list, cheaply. -/
theorem mem_of_getElemEq {α : Type} (l : List α) (i : Nat) (a : α)
    (h : l[i]? = some a) : a ∈ l :=
  List.getElem?_mem h

set_option maxHeartbeats 1000000

/-- The C5 property, stated over the validation step `headerValidate`. -/
theorem compressed_filenames_of_validate (t : Table) (h : HeaderSection)
    (hv : headerValidate t = .ok h) (hc : h.use_old_filenames = false) :
    ∃ dirnames basenames dirindexes sizes files,
      mget 1118 t = some (.StringArray dirnames) ∧
      mget 1117 t = some (.StringArray basenames) ∧
      mget 1116 t = some (.Int32 dirindexes) ∧
      mget 1028 t = some (.Int32 sizes) ∧
      filesOf h = some files ∧
      basenames.length = files.length ∧
      dirindexes.length = files.length ∧
      files.length = sizes.length ∧
      (∀ d ∈ dirindexes, d < dirnames.length) ∧
      (∀ i, i < files.length →
        ∃ d dir base f, dirindexes[i]? = some d ∧ dirnames[d]? = some dir ∧
          basenames[i]? = some base ∧ files[i]? = some f ∧ f.name = dir ++ base) := by
  obtain ⟨hschema, rn, hrn, htable, huse, _, hcompF⟩ := headerValidate_ok_inv hv
  have hcomp : checkCompressed t = .ok () := hcompF hc
  obtain ⟨vdir, vbase, values, hm1118, hm1117, hm1116, hbounds, hbaseidx, hcounts⟩ :=
    checkCompressed_ok_inv hcomp
  have hdirt := (validateEntry_present_ok hm1118
    (validateSchema_ok hschema ((false, "DIRNAMES", 1118, .StringArray, none) : SchemaEntry)
      (mem_of_getElemEq headerEntries 39 _ rfl))).1
  have hbaset := (validateEntry_present_ok hm1117
    (validateSchema_ok hschema ((false, "BASENAMES", 1117, .StringArray, none) : SchemaEntry)
      (mem_of_getElemEq headerEntries 38 _ rfl))).1
  obtain ⟨dirnames, hdirn⟩ : ∃ l, vdir = IndexValue.StringArray l := by
    cases vdir <;> simp [IndexValue.index_type] at hdirt <;> exact ⟨_, rfl⟩
  obtain ⟨basenames, hbasen⟩ : ∃ l, vbase = IndexValue.StringArray l := by
    cases vbase <;> simp [IndexValue.index_type] at hbaset <;> exact ⟨_, rfl⟩
  subst hdirn
  subst hbasen
  simp only [IndexValue.count] at hbounds hbaseidx hcounts
  obtain ⟨sizes, hm1028⟩ := required_int32_array hschema "FILESIZES" 1028 (mem_of_getElemEq headerEntries 25 _ rfl)
  obtain ⟨modes, hm1030⟩ := required_int16_array hschema "FILEMODES" 1030 (mem_of_getElemEq headerEntries 26 _ rfl)
  obtain ⟨rdevs, hm1033⟩ := required_int16_array hschema "FILERDEVS" 1033 (mem_of_getElemEq headerEntries 27 _ rfl)
  obtain ⟨mtimes, hm1034⟩ := required_int32_array hschema "FILEMTIMES" 1034 (mem_of_getElemEq headerEntries 28 _ rfl)
  obtain ⟨md5s, hm1035⟩ := required_string_array hschema "FILEMD5S" 1035 (mem_of_getElemEq headerEntries 29 _ rfl)
  obtain ⟨linktos, hm1036⟩ := required_string_array hschema "FILELINKTOS" 1036 (mem_of_getElemEq headerEntries 30 _ rfl)
  obtain ⟨flagss, hm1037⟩ := required_int32_array hschema "FILEFLAGS" 1037 (mem_of_getElemEq headerEntries 31 _ rfl)
  obtain ⟨users, hm1039⟩ := required_string_array hschema "FILEUSERNAME" 1039 (mem_of_getElemEq headerEntries 32 _ rfl)
  obtain ⟨groups, hm1040⟩ := required_string_array hschema "FILEGROUPNAME" 1040 (mem_of_getElemEq headerEntries 33 _ rfl)
  obtain ⟨devices, hm1095⟩ := required_int32_array hschema "FILEDEVICES" 1095 (mem_of_getElemEq headerEntries 34 _ rfl)
  obtain ⟨inodes, hm1096⟩ := required_int32_array hschema "FILEINODES" 1096 (mem_of_getElemEq headerEntries 35 _ rfl)
  obtain ⟨langs, hm1097⟩ := required_string_array hschema "FILELANGS" 1097 (mem_of_getElemEq headerEntries 36 _ rfl)
  have count_eq : ∀ (name : String) (tag : Int) (v : IndexValue),
      (name, tag) ∈ fileEntries → mget tag t = some v →
      v.count = basenames.length := by
    intro name tag v hmem hm
    have hx := hcounts (name, tag) hmem
    rw [hm] at hx
    simpa using hx.symm
  have hlsizes : sizes.length = basenames.length := by
    simpa [IndexValue.count] using count_eq "FILESIZES" 1028 _ (mem_of_getElemEq fileEntries 0 _ rfl) hm1028
  have hlmodes : modes.length = basenames.length := by
    simpa [IndexValue.count] using count_eq "FILEMODES" 1030 _ (mem_of_getElemEq fileEntries 1 _ rfl) hm1030
  have hlrdevs : rdevs.length = basenames.length := by
    simpa [IndexValue.count] using count_eq "FILERDEVS" 1033 _ (mem_of_getElemEq fileEntries 2 _ rfl) hm1033
  have hlmtimes : mtimes.length = basenames.length := by
    simpa [IndexValue.count] using count_eq "FILEMTIMES" 1034 _ (mem_of_getElemEq fileEntries 3 _ rfl) hm1034
  have hlmd5s : md5s.length = basenames.length := by
    simpa [IndexValue.count] using count_eq "FILEMD5S" 1035 _ (mem_of_getElemEq fileEntries 4 _ rfl) hm1035
  have hllinktos : linktos.length = basenames.length := by
    simpa [IndexValue.count] using count_eq "FILELINKTOS" 1036 _ (mem_of_getElemEq fileEntries 5 _ rfl) hm1036
  have hlflags : flagss.length = basenames.length := by
    simpa [IndexValue.count] using count_eq "FILEFLAGS" 1037 _ (mem_of_getElemEq fileEntries 6 _ rfl) hm1037
  have hlusers : users.length = basenames.length := by
    simpa [IndexValue.count] using count_eq "FILEUSERNAME" 1039 _ (mem_of_getElemEq fileEntries 7 _ rfl) hm1039
  have hlgroups : groups.length = basenames.length := by
    simpa [IndexValue.count] using count_eq "FILEGROUPNAME" 1040 _ (mem_of_getElemEq fileEntries 8 _ rfl) hm1040
  have hldevices : devices.length = basenames.length := by
    simpa [IndexValue.count] using count_eq "FILEDEVICES" 1095 _ (mem_of_getElemEq fileEntries 9 _ rfl) hm1095
  have hlinodes : inodes.length = basenames.length := by
    simpa [IndexValue.count] using count_eq "FILEINODES" 1096 _ (mem_of_getElemEq fileEntries 10 _ rfl) hm1096
  have hllangs : langs.length = basenames.length := by
    simpa [IndexValue.count] using count_eq "FILELANGS" 1097 _ (mem_of_getElemEq fileEntries 11 _ rfl) hm1097
  have hfa : ∀ i, i < sizes.length → fileAt t false i = some
      { name := dirnames.getD (values.getD i 0) [] ++ basenames.getD i [],
        size := sizes.getD i 0, mode := modes.getD i 0, rdev := rdevs.getD i 0,
        mtime := mtimes.getD i 0, md5 := md5s.getD i [], linkto := linktos.getD i [],
        flags := flagss.getD i 0, user := users.getD i [], group := groups.getD i [],
        device := devices.getD i 0, inode := inodes.getD i 0,
        lang := langs.getD i [] } := by
    intro i hi
    have hib : i < basenames.length := lt_of_lt_of_eq hi hlsizes
    have hiv : i < values.length := lt_of_lt_of_eq hib hbaseidx
    have hdmem : values.getD i 0 ∈ values := by
      rw [getD_eq values 0 hiv]
      exact List.getElem_mem hiv
    exact fileAt_eval t i dirnames basenames md5s linktos users groups langs
      values sizes modes rdevs mtimes flagss devices inodes
      hm1116 hm1117 hm1118 hm1028 hm1030 hm1033 hm1034 hm1035 hm1036 hm1037
      hm1039 hm1040 hm1095 hm1096 hm1097
      hiv hib (hbounds _ hdmem) hi
      (lt_of_lt_of_eq hib hlmodes.symm) (lt_of_lt_of_eq hib hlrdevs.symm)
      (lt_of_lt_of_eq hib hlmtimes.symm) (lt_of_lt_of_eq hib hlmd5s.symm)
      (lt_of_lt_of_eq hib hllinktos.symm) (lt_of_lt_of_eq hib hlflags.symm)
      (lt_of_lt_of_eq hib hlusers.symm) (lt_of_lt_of_eq hib hlgroups.symm)
      (lt_of_lt_of_eq hib hldevices.symm) (lt_of_lt_of_eq hib hlinodes.symm)
      (lt_of_lt_of_eq hib hllangs.symm)
  obtain ⟨tb, uo⟩ := h
  simp only at htable hc
  subst htable
  subst hc
  obtain ⟨files, hmapm, hflen, hfget⟩ := mapM_range_spec (fun i => fileAt tb false i)
    sizes.length (fun i hi => by show (fileAt tb false i).isSome = true; rw [hfa i hi]; rfl)
  refine ⟨dirnames, basenames, values, sizes, files, hm1118, hm1117, hm1116, hm1028,
    ?_, (hflen.trans hlsizes).symm,
    hbaseidx.symm.trans (hflen.trans hlsizes).symm, hflen, hbounds, ?_⟩
  · unfold filesOf
    simp only [hm1028, IndexValue.count]
    exact hmapm
  · intro i hi
    have hisz : i < sizes.length := lt_of_lt_of_eq hi hflen
    have hib : i < basenames.length := lt_of_lt_of_eq hisz hlsizes
    have hiv : i < values.length := lt_of_lt_of_eq hib hbaseidx
    have hdmem : values.getD i 0 ∈ values := by
      rw [getD_eq values 0 hiv]
      exact List.getElem_mem hiv
    have hdb : values.getD i 0 < dirnames.length := hbounds _ hdmem
    have hfile := (hfget i hisz).symm.trans (hfa i hisz)
    exact ⟨values.getD i 0, dirnames.getD (values.getD i 0) [], basenames.getD i [],
      _, getD_some 0 hiv, getD_some [] hdb, getD_some [] hib, hfile, rfl⟩


/-- Claim C5: for every header accepted by `HeaderSection::read` that uses
the compressed file-naming scheme, every DIRINDEXES element is within
`[0, |DIRNAMES|)`, `|BASENAMES| = |DIRINDEXES| =` file count, and every
`FileInfo` yielded by `files()` has install path
`DIRNAMES[DIRINDEXES[i]] ++ BASENAMES[i]`. -/
theorem claim_c5_compressed_filenames (bs rest : Bytes) (h : HeaderSection)
    (hr : headerRead bs = .ok (h, rest)) (hc : h.use_old_filenames = false) :
    ∃ dirnames basenames dirindexes sizes files,
      mget 1118 h.table = some (.StringArray dirnames) ∧
      mget 1117 h.table = some (.StringArray basenames) ∧
      mget 1116 h.table = some (.Int32 dirindexes) ∧
      mget 1028 h.table = some (.Int32 sizes) ∧
      filesOf h = some files ∧
      basenames.length = files.length ∧
      dirindexes.length = files.length ∧
      files.length = sizes.length ∧
      (∀ d ∈ dirindexes, d < dirnames.length) ∧
      (∀ i, i < files.length →
        ∃ d dir base f, dirindexes[i]? = some d ∧ dirnames[d]? = some dir ∧
          basenames[i]? = some base ∧ files[i]? = some f ∧ f.name = dir ++ base) := by
  unfold headerRead at hr
  rcases hE : tableRead false bs with e | tr
  · simp only [hE] at hr
    exact absurd hr (by simp)
  · obtain ⟨t, r⟩ := tr
    simp only [hE] at hr
    rcases hV : headerValidate t with e | h2
    · simp only [hV] at hr
      exact absurd hr (by simp)
    · simp only [hV, Except.ok.injEq, Prod.mk.injEq] at hr
      obtain ⟨hh, _⟩ := hr
      subst hh
      obtain ⟨_, rn, _, htab, _⟩ := headerValidate_ok_inv hV
      rw [htab]
      exact compressed_filenames_of_validate t h2 hV hc

/-- A concrete Header table using the compressed file-naming scheme, with
one file installed at `/a/f`. -/
def headerTableCompressed : Table :=
  [(1000, .String (str "a")), (1001, .String (str "1")), (1002, .String (str "1")),
   (1004, .I18nString []), (1005, .I18nString []), (1009, .Int32 [5]),
   (1014, .String (str "MIT")), (1016, .I18nString []), (1021, .String (str "linux")),
   (1022, .String []), (1028, .Int32 [5]), (1030, .Int16 [420]), (1033, .Int16 [0]),
   (1034, .Int32 [0]), (1035, .StringArray [str "x"]), (1036, .StringArray [str ""]),
   (1037, .Int32 [0]), (1039, .StringArray [str "root"]), (1040, .StringArray [str "root"]),
   (1047, .StringArray []), (1048, .Int32 [0]),
   (1049, .StringArray [str "rpmlib(CompressedFileNames)"]),
   (1050, .StringArray [str ""]), (1095, .Int32 [0]), (1096, .Int32 [0]),
   (1097, .StringArray [str ""]), (1112, .Int32 []), (1113, .StringArray []),
   (1116, .Int32 [0]), (1117, .StringArray [str "f"]),
   (1118, .StringArray [str "/a/"]),
   (1124, .String (str "cpio")), (1125, .String (str "gzip")),
   (1126, .String (str "9"))]

/-- Witness for C5: the concrete compressed-scheme table validates, and the
claim holds of it. -/
theorem claim_c5_witness :
    ∃ dirnames basenames dirindexes sizes files,
      mget 1118 headerTableCompressed = some (.StringArray dirnames) ∧
      mget 1117 headerTableCompressed = some (.StringArray basenames) ∧
      mget 1116 headerTableCompressed = some (.Int32 dirindexes) ∧
      mget 1028 headerTableCompressed = some (.Int32 sizes) ∧
      filesOf ⟨headerTableCompressed, false⟩ = some files ∧
      basenames.length = files.length ∧
      dirindexes.length = files.length ∧
      files.length = sizes.length ∧
      (∀ d ∈ dirindexes, d < dirnames.length) ∧
      (∀ i, i < files.length →
        ∃ d dir base f, dirindexes[i]? = some d ∧ dirnames[d]? = some dir ∧
          basenames[i]? = some base ∧ files[i]? = some f ∧ f.name = dir ++ base) :=
  claim_c5_compressed_filenames (tableWrite false headerTableCompressed) []
    ⟨headerTableCompressed, false⟩
    (by
      have hrt : tableRead false (tableWrite false headerTableCompressed)
          = .ok (headerTableCompressed, []) := by
        simpa using tableRead_tableWrite false headerTableCompressed [] (by decide) (by decide)
      have hv : headerValidate headerTableCompressed
          = .ok ⟨headerTableCompressed, false⟩ := by decide
      unfold headerRead
      simp only [hrt, hv])
    (by decide)

end Rpm
